import Mathlib

/-!
# Git Town: the sync planner, the undo loader, step methods and step lists

A shallow embedding of `src/cmd/sync.go`, `src/cmd/undo.go` and the step methods of
`src/steps`.  The planner code is translated function by function; the builder it
writes into threads through the functions as an explicit value.  Packages the code
calls but which are outside the sources (`domain`, `config`, `runstate`, `persistence`,
`messages`, `git`) are modelled from the specification and marked as such; for
`runstate.StepList` the tests in `src/runstate/steplist_test.go` fix the behaviour.
-/

set_option autoImplicit false

namespace GitTown

/-! ## Domain types -/

/-- LocalBranchName is the name of a local Git branch (`domain.LocalBranchName`). -/
structure LocalBranchName where
  id : String
deriving DecidableEq, Repr

/-- RemoteBranchName is the name of a remote branch, e.g. `origin/foo`. -/
structure RemoteBranchName where
  id : String
deriving DecidableEq, Repr

/-- BranchName is the name of a local or remote branch (`domain.BranchName`). -/
structure BranchName where
  id : String
deriving DecidableEq, Repr

/-- SHA is a Git commit hash (`domain.SHA`). -/
structure SHA where
  id : String
deriving DecidableEq, Repr

/-- Modelled from the spec: `domain.NewBranchName` is not in the sources; it wraps the
given text into a branch name. -/
def NewBranchName (id : String) : BranchName := ⟨id⟩

/-- Modelled from the spec: `LocalBranchName.BranchName()` is not in the sources; the
conversion keeps the text of the name. -/
def LocalBranchName.BranchName (name : LocalBranchName) : BranchName := ⟨name.id⟩

/-- Modelled from the spec: `RemoteBranchName.BranchName()` is not in the sources; the
conversion keeps the text of the name. -/
def RemoteBranchName.BranchName (name : RemoteBranchName) : BranchName := ⟨name.id⟩

/-- Modelled from the spec: `LocalBranchName.IsEmpty()` is not in the sources; a name
is empty when its text is. -/
def LocalBranchName.IsEmpty (name : LocalBranchName) : Bool := name.id == ""

/-- Modelled from the spec: `LocalBranchName.String()` is not in the sources; it gives
the text of the name. -/
def LocalBranchName.String (name : LocalBranchName) : String := name.id

/-- Modelled from the spec: `domain.BranchInfo` is not in the sources.  §3 gives a branch
its local name and its tracking remote name.  `HasTrackingBranch()` is computed from the
sync status by code outside the sources, so the record carries its result. -/
structure BranchInfo where
  LocalName : LocalBranchName
  RemoteName : RemoteBranchName
  hasTrackingBranch : Bool
deriving DecidableEq, Repr

/-- The result of `BranchInfo.HasTrackingBranch()`. -/
def BranchInfo.HasTrackingBranch (bi : BranchInfo) : Bool := bi.hasTrackingBranch

/-- Modelled from the spec: `BranchInfo.IsLocal()` is not in the sources; §3 makes the
local name optional, the empty name standing for an absent one. -/
def BranchInfo.IsLocal (bi : BranchInfo) : Bool := !bi.LocalName.IsEmpty

/-- BranchInfos is `domain.BranchInfos`, a slice of branch infos. -/
abbrev BranchInfos := List BranchInfo

/-- Modelled from the spec: `BranchInfos.LocalBranches()` is not in the sources; it
keeps the branches that exist locally. -/
def BranchInfos.LocalBranches (bs : BranchInfos) : BranchInfos := bs.filter BranchInfo.IsLocal

/-- Modelled from the spec: `BranchInfos.Names()` is not in the sources; it lists the
local names in order. -/
def BranchInfos.Names (bs : BranchInfos) : List LocalBranchName := bs.map BranchInfo.LocalName

/-- The kinds of branches (§3): `main | perennial | feature`. -/
inductive BranchType where
  | main
  | perennial
  | feature
deriving DecidableEq, Repr

/-- Modelled from the spec: `domain.BranchTypes` is not in the sources; §3 describes it
as a classifier mapping each local branch to `main | perennial | feature`. -/
structure BranchTypes where
  classify : LocalBranchName → BranchType

/-- Modelled from the spec: `BranchTypes.IsFeatureBranch` is not in the sources; a
branch is a feature branch when the classifier says so. -/
def BranchTypes.IsFeatureBranch (types : BranchTypes) (branch : LocalBranchName) : Bool :=
  match types.classify branch with
  | .feature => true
  | _ => false

/-- Branches is `domain.Branches`: the initial branch, all known branches and the
classifier of branch kinds. -/
structure Branches where
  Initial : LocalBranchName
  All : BranchInfos
  Types : BranchTypes

/-- Modelled from the spec: `domain.Remotes` is not in the sources; §3 describes a set
of remotes with the queries `HasOrigin()` and `HasUpstream()`. -/
structure Remotes where
  names : List String
deriving DecidableEq, Repr

/-- HasOrigin tells whether the `origin` remote exists. -/
def Remotes.HasOrigin (remotes : Remotes) : Bool := remotes.names.contains "origin"

/-- HasUpstream tells whether the `upstream` remote exists. -/
def Remotes.HasUpstream (remotes : Remotes) : Bool := remotes.names.contains "upstream"

/-! ## Lineage -/

/-- Modelled from the spec: `config.Lineage` is not in the sources; §3 describes a
mapping from child to parent, kept here as a list of (child, parent) entries. -/
abbrev Lineage := List (LocalBranchName × LocalBranchName)

/-- Modelled from the spec: `Lineage.Parent` is not in the sources; it looks the parent
up and gives the empty name for a branch without entry. -/
def Lineage.Parent (lineage : Lineage) (branch : LocalBranchName) : LocalBranchName :=
  (List.lookup branch lineage).getD ⟨""⟩

/-- The walk behind `Ancestors`: climbs from `branch` towards the root, each parent
going in front of the ones found so far. -/
def Lineage.ancestorsFrom (lineage : Lineage) :
    Nat → LocalBranchName → List LocalBranchName → List LocalBranchName
  | 0, _, acc => acc
  | fuel + 1, branch, acc =>
    match List.lookup branch lineage with
    | none => acc
    | some parent => Lineage.ancestorsFrom lineage fuel parent (parent :: acc)

/-- Modelled from the spec: `Lineage.Ancestors` is not in the sources; §3: the unique
path to the root, root-first.  An acyclic lineage has no path longer than its number of
entries, which bounds the walk. -/
def Lineage.Ancestors (lineage : Lineage) (branch : LocalBranchName) : List LocalBranchName :=
  Lineage.ancestorsFrom lineage lineage.length branch []

/-- AppendAllMissing appends the elements of `extra` that `acc` does not hold yet. -/
def AppendAllMissing (acc extra : List LocalBranchName) : List LocalBranchName :=
  extra.foldl (fun got name => if got.contains name then got else got ++ [name]) acc

/-- Modelled from the spec: `Lineage.BranchesAndAncestors` is not in the sources; §3: the
union of `{b} ∪ Ancestors(b)` for the given branches, deduplicated, every branch after
all its ancestors (roots first). -/
def Lineage.BranchesAndAncestors (lineage : Lineage) (branchNames : List LocalBranchName) :
    List LocalBranchName :=
  branchNames.foldl
    (fun got branch => AppendAllMissing got (Lineage.Ancestors lineage branch ++ [branch])) []

/-! ## Configuration values -/

/-- SyncStrategy is `config.SyncStrategy`, a string-valued setting. -/
structure SyncStrategy where
  name : String
deriving DecidableEq, Repr

/-- PullBranchStrategy is `config.PullBranchStrategy`, a string-valued setting. -/
structure PullBranchStrategy where
  name : String
deriving DecidableEq, Repr

/-- Modelled from the spec: the constant `config.SyncStrategyMerge` is not in the
sources; §4.1 names the values `merge | rebase`. -/
def SyncStrategyMerge : SyncStrategy := ⟨"merge"⟩

/-- Modelled from the spec: the constant `config.SyncStrategyRebase` (§4.1). -/
def SyncStrategyRebase : SyncStrategy := ⟨"rebase"⟩

/-- Modelled from the spec: the constant `config.PullBranchStrategyMerge` (§4.1). -/
def PullBranchStrategyMerge : PullBranchStrategy := ⟨"merge"⟩

/-- Modelled from the spec: the constant `config.PullBranchStrategyRebase` (§4.1). -/
def PullBranchStrategyRebase : PullBranchStrategy := ⟨"rebase"⟩

/-! ## Errors -/

/-- Modelled from the spec: the message catalog (package `messages`) is not in the
sources; §7 keys the user-facing messages by symbolic name. -/
inductive Message where
  | BranchDoesntExist
  | DiffConflictWithMain
  | ProposalTargetBranchUpdateProblem
  | RunstateLoadProblem
  | UndoNothingToDo
deriving DecidableEq, Repr

/-- The format of an error: literal text written in the code, or a catalog entry. -/
inductive Format where
  | literal (text : String)
  | message (key : Message)
deriving DecidableEq, Repr

/-- An argument handed to `fmt.Errorf`. -/
inductive FmtArg where
  | text (s : String)
  | number (n : Int)
deriving DecidableEq, Repr

/-- GoError is an error made by `fmt.Errorf(format, args...)`, kept unformatted. -/
structure GoError where
  format : Format
  args : List FmtArg
deriving DecidableEq, Repr

/-! ## Steps -/

/-- Step is the closed set of step variants (package `steps`), each with its payload. -/
inductive Step where
  | AbortMergeStep
  | AbortRebaseStep
  | AddToPerennialBranchesStep (Branch : LocalBranchName)
  | ChangeToGitRootStep
  | CheckoutStep (Branch : LocalBranchName)
  | CreateTrackingBranchStep (Branch : LocalBranchName) (NoPushHook : Bool)
  | DeleteParentBranchStep (Branch : LocalBranchName) (Parent : LocalBranchName)
  | FetchUpstreamStep (Branch : LocalBranchName)
  | ForcePushBranchStep (Branch : LocalBranchName) (NoPushHook : Bool)
  | MergeStep (Branch : BranchName)
  | PushCurrentBranchStep (CurrentBranch : LocalBranchName) (NoPushHook : Bool) (Undoable : Bool)
  | PushTagsStep
  | RebaseBranchStep (Branch : BranchName)
  | ResetCurrentBranchToSHAStep (Hard : Bool) (SHA : SHA)
  | RestoreOpenChangesStep
  | SetParentStep (Branch : LocalBranchName) (ParentBranch : LocalBranchName)
  | StashOpenChangesStep
  | UpdateProposalTargetStep (ProposalNumber : Int) (NewTarget : LocalBranchName)
      (ExistingTarget : LocalBranchName)
deriving DecidableEq, Repr

/-- StepList is `runstate.StepList`: an ordered program of steps. -/
structure StepList where
  List : List Step
deriving DecidableEq, Repr

/-! ## The step-list builder -/

/-- Modelled from the spec: `runstate.StepListBuilder` is not in the sources; §3 and §4.5
describe an ordered sequence of steps plus a deferred error. -/
structure StepListBuilder where
  list : StepList
  deferredError : Option GoError
deriving DecidableEq, Repr

/-- The zero value `runstate.StepListBuilder{}` the planner starts from. -/
def StepListBuilder.empty : StepListBuilder := ⟨⟨[]⟩, none⟩

/-- Modelled from the spec: `StepListBuilder.Add` is not in the sources; §4.5:
"`Add(step)` appends". -/
def StepListBuilder.Add (slb : StepListBuilder) (step : Step) : StepListBuilder :=
  { slb with list := ⟨slb.list.List ++ [step]⟩ }

/-- Modelled from the spec: `StepListBuilder.Fail` is not in the sources; §4.5: "latches
a formatted deferred error"; an error latched earlier stays. -/
def StepListBuilder.Fail (slb : StepListBuilder) (format : String) (a : List FmtArg) :
    StepListBuilder :=
  match slb.deferredError with
  | some _ => slb
  | none => { slb with deferredError := some ⟨.literal format, a⟩ }

/-- WrapOptions is `runstate.WrapOptions`, with the fields the planner sets. -/
structure WrapOptions where
  RunInGitRoot : Bool
  StashOpenChanges : Bool
  MainBranch : LocalBranchName
  InitialBranch : LocalBranchName
  PreviousBranch : LocalBranchName
deriving DecidableEq, Repr

/-- Modelled from the spec: `StepListBuilder.Wrap` is not in the sources; §4.5: "if
`run_in_git_root`, prepends a change-to-git-root step; if `stash_open_changes`, wraps
the body in `StashOpenChanges ... RestoreOpenChanges`; always ends with
`Checkout(previous_branch)` and `Checkout(initial_branch)`".  The stash pair goes
outermost (§8, S2: the list begins with `StashOpenChanges` and ends with
`RestoreOpenChanges`).  A latched error is kept. -/
def StepListBuilder.Wrap (slb : StepListBuilder) (options : WrapOptions) : StepListBuilder :=
  let rooted := if options.RunInGitRoot then [Step.ChangeToGitRootStep] else []
  let body := rooted ++ slb.list.List ++
    [Step.CheckoutStep options.PreviousBranch, Step.CheckoutStep options.InitialBranch]
  let wrapped := if options.StashOpenChanges then
    [Step.StashOpenChangesStep] ++ body ++ [Step.RestoreOpenChangesStep] else body
  { slb with list := ⟨wrapped⟩ }

/-- Modelled from the spec: `StepListBuilder.Result` is not in the sources; §4.5:
"returns the list or the latched error". -/
def StepListBuilder.Result (slb : StepListBuilder) : Except GoError StepList :=
  match slb.deferredError with
  | some err => .error err
  | none => .ok slb.list

/-! ## The sync planner (`src/cmd/sync.go`) -/

/-- The configuration of a sync run (`syncConfig`). -/
structure syncConfig where
  branches : Branches
  branchesToSync : BranchInfos
  hasOpenChanges : Bool
  remotes : Remotes
  isOffline : Bool
  lineage : Lineage
  mainBranch : LocalBranchName
  previousBranch : LocalBranchName
  pullBranchStrategy : PullBranchStrategy
  pushHook : Bool
  shouldPushTags : Bool
  shouldSyncUpstream : Bool
  syncStrategy : SyncStrategy

/-- The arguments of `syncBranchSteps`. -/
structure syncBranchStepsArgs where
  branch : BranchInfo
  branchTypes : BranchTypes
  remotes : Remotes
  isOffline : Bool
  lineage : Lineage
  mainBranch : LocalBranchName
  pullBranchStrategy : PullBranchStrategy
  pushBranch : Bool
  pushHook : Bool
  shouldSyncUpstream : Bool
  syncStrategy : SyncStrategy

/-- The arguments of `syncPerennialBranchSteps`. -/
structure syncPerennialBranchStepsArgs where
  branch : BranchInfo
  mainBranch : LocalBranchName
  pullBranchStrategy : PullBranchStrategy
  shouldSyncUpstream : Bool
  hasUpstream : Bool

/-- Adds the step to pull updates from the remote branch of the current feature branch
into the current feature branch. -/
def pullTrackingBranchOfCurrentFeatureBranchStep (list : StepListBuilder)
    (trackingBranch : RemoteBranchName) (strategy : SyncStrategy) : StepListBuilder :=
  if strategy = SyncStrategyMerge then
    list.Add (.MergeStep trackingBranch.BranchName)
  else if strategy = SyncStrategyRebase then
    list.Add (.RebaseBranchStep trackingBranch.BranchName)
  else
    list.Fail "unknown syncStrategy value: %q" [.text strategy.name]

/-- Adds the step to pull updates from the parent branch of the current feature branch
into the current feature branch. -/
def pullParentBranchOfCurrentFeatureBranchStep (list : StepListBuilder)
    (parentBranch : LocalBranchName) (strategy : SyncStrategy) : StepListBuilder :=
  if strategy = SyncStrategyMerge then
    list.Add (.MergeStep parentBranch.BranchName)
  else if strategy = SyncStrategyRebase then
    list.Add (.RebaseBranchStep parentBranch.BranchName)
  else
    list.Fail "unknown syncStrategy value: %q" [.text strategy.name]

/-- Provides the steps to update the current perennial branch with changes from the
given other branch. -/
def updateCurrentPerennialBranchStep (list : StepListBuilder)
    (otherBranch : RemoteBranchName) (strategy : PullBranchStrategy) : StepListBuilder :=
  if strategy = PullBranchStrategyMerge then
    list.Add (.MergeStep otherBranch.BranchName)
  else if strategy = PullBranchStrategyRebase then
    list.Add (.RebaseBranchStep otherBranch.BranchName)
  else
    list.Fail "unknown syncStrategy value: %q" [.text strategy.name]

/-- Adds the step that pushes a feature branch which has a tracking branch. -/
def pushFeatureBranchSteps (list : StepListBuilder) (branch : LocalBranchName)
    (syncStrategy : SyncStrategy) (pushHook : Bool) : StepListBuilder :=
  if syncStrategy = SyncStrategyMerge then
    list.Add (.PushCurrentBranchStep branch (!pushHook) false)
  else if syncStrategy = SyncStrategyRebase then
    list.Add (.ForcePushBranchStep branch false)
  else
    list.Fail "unknown syncStrategy value: %q" [.text syncStrategy.name]

/-- Adds all the steps to sync the feature branch with the given name. -/
def syncFeatureBranchSteps (list : StepListBuilder) (branch : BranchInfo) (lineage : Lineage)
    (syncStrategy : SyncStrategy) : StepListBuilder :=
  let list := if branch.HasTrackingBranch then
    pullTrackingBranchOfCurrentFeatureBranchStep list branch.RemoteName syncStrategy else list
  pullParentBranchOfCurrentFeatureBranchStep list (lineage.Parent branch.LocalName) syncStrategy

/-- Adds all the steps to sync the perennial branch with the given name. -/
def syncPerennialBranchSteps (list : StepListBuilder) (args : syncPerennialBranchStepsArgs) :
    StepListBuilder :=
  let list := if args.branch.HasTrackingBranch then
    updateCurrentPerennialBranchStep list args.branch.RemoteName args.pullBranchStrategy else list
  if args.branch.LocalName = args.mainBranch && args.hasUpstream && args.shouldSyncUpstream then
    (list.Add (.FetchUpstreamStep args.mainBranch)).Add
      (.RebaseBranchStep (NewBranchName ("upstream/" ++ args.mainBranch.String)))
  else list

/-- Provides the steps to sync a particular branch. -/
def syncBranchSteps (list : StepListBuilder) (args : syncBranchStepsArgs) : StepListBuilder :=
  let isFeatureBranch := args.branchTypes.IsFeatureBranch args.branch.LocalName
  if !isFeatureBranch && !args.remotes.HasOrigin then
    -- perennial branch but no remote --> this branch cannot be synced
    list
  else
    let list := list.Add (.CheckoutStep args.branch.LocalName)
    let list := if isFeatureBranch then
      syncFeatureBranchSteps list args.branch args.lineage args.syncStrategy
    else
      syncPerennialBranchSteps list
        { branch := args.branch
          mainBranch := args.mainBranch
          pullBranchStrategy := args.pullBranchStrategy
          shouldSyncUpstream := args.shouldSyncUpstream
          hasUpstream := args.remotes.HasUpstream }
    if args.pushBranch && args.remotes.HasOrigin && !args.isOffline then
      if !args.branch.HasTrackingBranch then
        list.Add (.CreateTrackingBranchStep args.branch.LocalName false)
      else if !isFeatureBranch then
        list.Add (.PushCurrentBranchStep args.branch.LocalName false false)
      else
        pushFeatureBranchSteps list args.branch.LocalName args.syncStrategy args.pushHook
    else list

/-- The arguments `syncBranchesSteps` hands to `syncBranchSteps` for one branch. -/
def syncConfig.argsFor (config : syncConfig) (branch : BranchInfo) : syncBranchStepsArgs :=
  { branch := branch
    branchTypes := config.branches.Types
    remotes := config.remotes
    isOffline := config.isOffline
    lineage := config.lineage
    mainBranch := config.mainBranch
    pullBranchStrategy := config.pullBranchStrategy
    pushBranch := true
    pushHook := config.pushHook
    shouldSyncUpstream := config.shouldSyncUpstream
    syncStrategy := config.syncStrategy }

/-- The builder of `syncBranchesSteps` right before `list.Wrap` (lines 206-225): the
loop over `branchesToSync`, the final checkout and the tags push. -/
def syncBranchesSteps.beforeWrap (config : syncConfig) : StepListBuilder :=
  let list := config.branchesToSync.foldl
    (fun list branch => syncBranchSteps list (config.argsFor branch)) StepListBuilder.empty
  let list := list.Add (.CheckoutStep config.branches.Initial)
  if config.remotes.HasOrigin && config.shouldPushTags && !config.isOffline then
    list.Add .PushTagsStep
  else list

/-- The options `syncBranchesSteps` wraps its list with (lines 226-232). -/
def syncBranchesSteps.wrapOptions (config : syncConfig) : WrapOptions :=
  { RunInGitRoot := true
    StashOpenChanges := config.hasOpenChanges
    MainBranch := config.mainBranch
    InitialBranch := config.branches.Initial
    PreviousBranch := config.previousBranch }

/-- Provides the step list for the "git sync" command. -/
def syncBranchesSteps (config : syncConfig) : Except GoError StepList :=
  ((syncBranchesSteps.beforeWrap config).Wrap (syncBranchesSteps.wrapOptions config)).Result

/-- The steps `syncBranchSteps` emits for one branch: what it adds to an empty builder. -/
def branchBlock (args : syncBranchStepsArgs) : List Step :=
  (syncBranchSteps StepListBuilder.empty args).list.List


/-! ## Determining the sync configuration -/

/-- Modelled from the spec: `BranchInfos.Select` is not in the sources; it gives the
infos of the named branches in the order of the names (§3: lookup by name), and an error
for a name without info. -/
def BranchInfos.Select (bs : BranchInfos) : List LocalBranchName → Except GoError BranchInfos
  | [] => .ok []
  | name :: names =>
    match bs.find? (fun bi => bi.LocalName = name) with
    | none => .error ⟨.message .BranchDoesntExist, [.text name.String]⟩
    | some bi =>
      match BranchInfos.Select bs names with
      | .error err => .error err
      | .ok rest => .ok (bi :: rest)

/-- The repository as `determineSyncConfig` and `determineUndoRunstate` see it
(`execute.OpenRepoResult`): one field per call they make into the runner, the config
store, the validators and the loader, holding what that call answers. -/
structure OpenRepoResult where
  IsOffline : Bool
  RootDir : String
  -- the answer of `Config.Lineage()` at the start
  Lineage : Lineage
  -- the answer of `execute.LoadBranches`: branches, exit flag, error
  LoadBranches : Branches × Bool × Option GoError
  PreviouslyCheckedOutBranch : LocalBranchName
  HasOpenChanges : Except GoError Bool
  Remotes : Except GoError Remotes
  MainBranch : LocalBranchName
  -- the answer of `validate.KnowsBranchesAncestors`: whether the config was updated
  KnowsBranchesAncestors : Except GoError Bool
  -- the answer of `validate.KnowsBranchAncestors`: whether the config was updated
  KnowsBranchAncestors : Except GoError Bool
  -- the answer of `Config.Lineage()` after an ancestry change
  LineageAfterUpdate : GitTown.Lineage
  -- the answer of `Config.BranchTypes()` after an ancestry change
  BranchTypesAfterUpdate : BranchTypes
  -- the answer of `Config.BranchTypes()` after `Config.Reload()`
  BranchTypesAfterReload : BranchTypes
  SyncStrategy : Except GoError SyncStrategy
  PushHook : Except GoError Bool
  PullBranchStrategy : Except GoError PullBranchStrategy
  ShouldSyncUpstream : Except GoError Bool

/-- The sync configuration of a run (`determineSyncConfig`).  The Go function returns
`(config, exit, error)`; its caller drops the config when the error is set or `exit`
holds (line 68), so `ok none` stands for a requested exit and `error` for a failure. -/
def determineSyncConfig (allFlag : Bool) (repo : OpenRepoResult) :
    Except GoError (Option syncConfig) :=
  let lineage := repo.Lineage
  match repo.LoadBranches with
  | (_, _, some err) => .error err
  | (_, true, none) => .ok none
  | (branches, false, none) =>
    let previousBranch := repo.PreviouslyCheckedOutBranch
    match repo.HasOpenChanges with
    | .error err => .error err
    | .ok hasOpenChanges =>
    match repo.Remotes with
    | .error err => .error err
    | .ok remotes =>
    let mainBranch := repo.MainBranch
    match (if allFlag then repo.KnowsBranchesAncestors else repo.KnowsBranchAncestors) with
    | .error err => .error err
    | .ok configUpdated =>
    let localBranches := BranchInfos.LocalBranches branches.All
    let lineage := if configUpdated then repo.LineageAfterUpdate else lineage
    let types := if configUpdated then repo.BranchTypesAfterUpdate else branches.Types
    let types := if !allFlag && configUpdated then repo.BranchTypesAfterReload else types
    let branches : Branches := { branches with Types := types }
    let branchNamesToSync :=
      if allFlag then BranchInfos.Names localBranches else [branches.Initial]
    let shouldPushTags :=
      if allFlag then true else !branches.Types.IsFeatureBranch branches.Initial
    let allBranchNamesToSync := Lineage.BranchesAndAncestors lineage branchNamesToSync
    match repo.SyncStrategy with
    | .error err => .error err
    | .ok syncStrategy =>
    match repo.PushHook with
    | .error err => .error err
    | .ok pushHook =>
    match repo.PullBranchStrategy with
    | .error err => .error err
    | .ok pullBranchStrategy =>
    match repo.ShouldSyncUpstream with
    | .error err => .error err
    | .ok shouldSyncUpstream =>
    match BranchInfos.Select branches.All allBranchNamesToSync with
    | .error err => .error err
    | .ok branchesToSync =>
      .ok (some
        { branches := branches
          branchesToSync := branchesToSync
          hasOpenChanges := hasOpenChanges
          remotes := remotes
          isOffline := repo.IsOffline
          lineage := lineage
          mainBranch := mainBranch
          previousBranch := previousBranch
          pullBranchStrategy := pullBranchStrategy
          pushHook := pushHook
          shouldPushTags := shouldPushTags
          shouldSyncUpstream := shouldSyncUpstream
          syncStrategy := syncStrategy })

/-! ## The run state and the undo loader (`src/cmd/undo.go`) -/

/-- Modelled from the spec: `runstate.UnfinishedRunStateDetails` is not in the sources;
§3: whether the step can be skipped, the endangered branch and a timestamp. -/
structure UnfinishedRunStateDetails where
  CanSkip : Bool
  EndBranch : LocalBranchName
  EndTime : Nat
deriving DecidableEq, Repr

/-- Modelled from the spec: `runstate.RunState` is not in the sources; §3 and §6 list its
fields. -/
structure RunState where
  Command : String
  IsAbort : Bool
  IsUndo : Bool
  InitialActiveBranch : LocalBranchName
  UnfinishedDetails : Option UnfinishedRunStateDetails
  RunStepList : StepList
  UndoStepList : StepList
  AbortStepList : StepList
deriving DecidableEq, Repr

/-- Modelled from the spec: `RunState.IsUnfinished` is not in the sources; §3: the
unfinished details are present exactly while a command is interrupted. -/
def RunState.IsUnfinished (runState : RunState) : Bool := runState.UnfinishedDetails.isSome

/-- The undo run state of a loaded run state (`determineUndoRunstate`).  `Load` is
`persistence.Load` and `CreateUndoRunState` is `RunState.CreateUndoRunState`, both
outside the sources and taken as parameters; a loader answers `ok none` when no run
state is persisted, and the text of its error goes into the load-problem error. -/
def determineUndoRunstate (Load : String → Except String (Option RunState))
    (CreateUndoRunState : RunState → RunState) (repo : OpenRepoResult) :
    Except GoError RunState :=
  match Load repo.RootDir with
  | .error err => .error ⟨.message .RunstateLoadProblem, [.text err]⟩
  | .ok none => .error ⟨.message .UndoNothingToDo, []⟩
  | .ok (some runState) =>
    if runState.IsUnfinished then .error ⟨.message .UndoNothingToDo, []⟩
    else .ok (CreateUndoRunState runState)


/-- The part of `runSync` that plans (lines 67-74): the configuration, then the step
list; `ok none` when the configuration asks to exit. -/
def runSync.stepList (all : Bool) (repo : OpenRepoResult) : Except GoError (Option StepList) :=
  match determineSyncConfig all repo with
  | .error err => .error err
  | .ok none => .ok none
  | .ok (some config) =>
    match syncBranchesSteps config with
    | .error err => .error err
    | .ok stepList => .ok (some stepList)

/-! ## Scenarios of the specification (§8) -/

/-- The branch kinds of the scenarios: `main` is the main branch, every other branch a
feature branch. -/
def scenarioTypes : BranchTypes :=
  ⟨fun branch => if branch = ⟨"main"⟩ then .main else .feature⟩

/-- A local branch with a tracking branch on origin. -/
def trackedBranch (name : String) : BranchInfo :=
  { LocalName := ⟨name⟩, RemoteName := ⟨"origin/" ++ name⟩, hasTrackingBranch := true }

/-- Scenario S1 as a repository: lineage `main ← feature`, initial branch `feature`,
both branches tracking origin, origin present, online, no open changes, sync-upstream
off, sync strategy merge; the settings S1 leaves open are push hook on, pull-branch
strategy rebase and `main` as the previously checked out branch. -/
def s1Repo : OpenRepoResult :=
  { IsOffline := false
    RootDir := "/repo"
    Lineage := [(⟨"feature"⟩, ⟨"main"⟩)]
    LoadBranches :=
      ({ Initial := ⟨"feature"⟩
         All := [trackedBranch "feature", trackedBranch "main"]
         Types := scenarioTypes }, false, none)
    PreviouslyCheckedOutBranch := ⟨"main"⟩
    HasOpenChanges := .ok false
    Remotes := .ok ⟨["origin"]⟩
    MainBranch := ⟨"main"⟩
    KnowsBranchesAncestors := .ok false
    KnowsBranchAncestors := .ok false
    LineageAfterUpdate := [(⟨"feature"⟩, ⟨"main"⟩)]
    BranchTypesAfterUpdate := scenarioTypes
    BranchTypesAfterReload := scenarioTypes
    SyncStrategy := .ok SyncStrategyMerge
    PushHook := .ok true
    PullBranchStrategy := .ok PullBranchStrategyRebase
    ShouldSyncUpstream := .ok false }

/-- The sync configuration `determineSyncConfig` derives for S1 without `--all`: the
branches to sync are the initial branch and its ancestors, roots first. -/
def s1Config : syncConfig :=
  { branches :=
      { Initial := ⟨"feature"⟩
        All := [trackedBranch "feature", trackedBranch "main"]
        Types := scenarioTypes }
    branchesToSync := [trackedBranch "main", trackedBranch "feature"]
    hasOpenChanges := false
    remotes := ⟨["origin"]⟩
    isOffline := false
    lineage := [(⟨"feature"⟩, ⟨"main"⟩)]
    mainBranch := ⟨"main"⟩
    previousBranch := ⟨"main"⟩
    pullBranchStrategy := PullBranchStrategyRebase
    pushHook := true
    shouldPushTags := false
    shouldSyncUpstream := false
    syncStrategy := SyncStrategyMerge }

/-- The five steps S1 gives as the planner output. -/
def s1Claimed : List Step :=
  [ .CheckoutStep ⟨"feature"⟩, .MergeStep ⟨"origin/feature"⟩, .MergeStep ⟨"main"⟩,
    .PushCurrentBranchStep ⟨"feature"⟩ false false, .CheckoutStep ⟨"feature"⟩ ]

/-- Scenario S3 as a repository: lineage `main ← a ← b`, initial branch `main`, all
branches tracking origin, sync strategy merge, pull-branch strategy rebase. -/
def s3Repo : OpenRepoResult :=
  { s1Repo with
    Lineage := [(⟨"a"⟩, ⟨"main"⟩), (⟨"b"⟩, ⟨"a"⟩)]
    LoadBranches :=
      ({ Initial := ⟨"main"⟩
         All := [trackedBranch "a", trackedBranch "b", trackedBranch "main"]
         Types := scenarioTypes }, false, none)
    PreviouslyCheckedOutBranch := ⟨"b"⟩ }

/-- The sync configuration `determineSyncConfig` derives for S3 with `--all`. -/
def s3Config : syncConfig :=
  { s1Config with
    branches :=
      { Initial := ⟨"main"⟩
        All := [trackedBranch "a", trackedBranch "b", trackedBranch "main"]
        Types := scenarioTypes }
    branchesToSync := [trackedBranch "main", trackedBranch "a", trackedBranch "b"]
    lineage := [(⟨"a"⟩, ⟨"main"⟩), (⟨"b"⟩, ⟨"a"⟩)]
    previousBranch := ⟨"b"⟩
    shouldPushTags := true }

/-- A local branch without a tracking branch. -/
def localBranch (name : String) : BranchInfo :=
  { LocalName := ⟨name⟩, RemoteName := ⟨""⟩, hasTrackingBranch := false }

/-- The configuration of S1 in a repository without any remote: both branches are
local only, and `feature` is also the previously checked out branch. -/
def noRemoteConfig : syncConfig :=
  { s1Config with
    branches :=
      { Initial := ⟨"feature"⟩
        All := [localBranch "feature", localBranch "main"]
        Types := scenarioTypes }
    branchesToSync := [localBranch "main", localBranch "feature"]
    remotes := ⟨[]⟩
    previousBranch := ⟨"feature"⟩ }

/-- The configuration of a repository whose only remote is `upstream`, with
sync-upstream enabled. -/
def upstreamOnlyConfig : syncConfig :=
  { noRemoteConfig with remotes := ⟨["upstream"]⟩, shouldSyncUpstream := true }


/-- Scenario S1 with a sync strategy that is neither merge nor rebase. -/
def unknownStrategyConfig : syncConfig :=
  { s1Config with syncStrategy := ⟨"squash"⟩ }

/-- A persisted run state of a finished `sync`, for trying the undo loader. -/
def finishedRunState : RunState :=
  { Command := "sync"
    IsAbort := false
    IsUndo := false
    InitialActiveBranch := ⟨"feature"⟩
    UnfinishedDetails := none
    RunStepList := ⟨[]⟩
    UndoStepList := ⟨[.CheckoutStep ⟨"feature"⟩]⟩
    AbortStepList := ⟨[]⟩ }


/-! ## Step methods (`src/steps`) -/

/-- Modelled from the spec: `git.BackendCommands` is not in the sources; §4.2 lists its
read-only queries, of which the record keeps the answers. -/
structure BackendCommands where
  CurrentBranch : LocalBranchName
  PreviouslyCheckedOutBranch : LocalBranchName
  HasOpenChanges : Bool
  HasMergeInProgress : Bool
  HasRebaseInProgress : Bool
deriving DecidableEq, Repr

/-- Modelled from the spec: `git.FrontendCommands` is not in the sources; §4.3 lists its
mutating operations.  The record keeps what `PopStash` answers: `none` for success, the
error otherwise. -/
structure FrontendCommands where
  PopStash : Option GoError
deriving DecidableEq, Repr

/-- The runner a step runs against (`git.ProdRunner`), with the part the steps here use. -/
structure ProdRunner where
  Frontend : FrontendCommands
deriving DecidableEq, Repr

/-- The arguments of `Step.Run` (`steps.RunArgs`), with the part the steps here use. -/
structure RunArgs where
  Runner : ProdRunner
deriving DecidableEq, Repr

/-- DeleteParentBranchStep removes the parent branch entry in the Git Town
configuration. -/
structure DeleteParentBranchStep where
  Branch : LocalBranchName
  Parent : LocalBranchName
deriving DecidableEq, Repr

/-- The undo steps of a DeleteParentBranchStep (`delete_parent_branch_step.go:15-20`);
the backend is a pointer the method does not read, `none` standing for nil. -/
def DeleteParentBranchStep.CreateUndoSteps (step : DeleteParentBranchStep)
    (_ : Option BackendCommands) : Except GoError (List Step) :=
  if step.Parent.IsEmpty then
    .ok []
  else
    .ok [.SetParentStep step.Branch step.Parent]

/-- UpdateProposalTargetStep changes the target branch of a proposal at the forge. -/
structure UpdateProposalTargetStep where
  ProposalNumber : Int
  NewTarget : LocalBranchName
  ExistingTarget : LocalBranchName
deriving DecidableEq, Repr

/-- The undo steps of an UpdateProposalTargetStep
(`update_proposal_target_step.go:23-29`): the same proposal with the targets swapped. -/
def UpdateProposalTargetStep.CreateUndoSteps (step : UpdateProposalTargetStep)
    (_ : Option BackendCommands) : Except GoError (List Step) :=
  .ok [.UpdateProposalTargetStep step.ProposalNumber step.ExistingTarget step.NewTarget]

/-- Whether a failure of the step aborts the whole program
(`update_proposal_target_step.go:31-33`). -/
def UpdateProposalTargetStep.ShouldAutomaticallyAbortOnError (_ : UpdateProposalTargetStep) :
    Bool :=
  true

/-- The error of the automatic abort (`update_proposal_target_step.go:35-37`):
`fmt.Errorf(messages.ProposalTargetBranchUpdateProblem, step.ProposalNumber)`; a Go
`error` is `none` when nil. -/
def UpdateProposalTargetStep.CreateAutomaticAbortError (step : UpdateProposalTargetStep) :
    Option GoError :=
  some ⟨.message .ProposalTargetBranchUpdateProblem, [.number step.ProposalNumber]⟩

/-- RestoreOpenChangesStep restores stashed away changes into the workspace. -/
structure RestoreOpenChangesStep where
deriving DecidableEq, Repr

/-- The undo steps of a RestoreOpenChangesStep (`restore_open_changes_step.go:15-17`). -/
def RestoreOpenChangesStep.CreateUndoSteps (_ : RestoreOpenChangesStep)
    (_ : Option BackendCommands) : Except GoError (List Step) :=
  .ok [.StashOpenChangesStep]

/-- Runs a RestoreOpenChangesStep (`restore_open_changes_step.go:19-25`): pops the
stash, and reports any failure as `errors.New(messages.DiffConflictWithMain)`. -/
def RestoreOpenChangesStep.Run (_ : RestoreOpenChangesStep) (args : RunArgs) : Option GoError :=
  match args.Runner.Frontend.PopStash with
  | some _ => some ⟨.message .DiffConflictWithMain, []⟩
  | none => none

/-! ## Rendering errors -/

/-- Modelled from the spec: the texts of the catalog (package `messages`) are not in the
sources.  §8 S6 quotes the proposal-target message for proposal 42, "Could not update
the target branch of proposal 42", which fixes the text of that entry; the spec quotes
no other entry. -/
def Message.text : Message → Option String
  | .ProposalTargetBranchUpdateProblem =>
    some "Could not update the target branch of proposal %d"
  | _ => none

/-- The formatting of `fmt.Errorf` for the formats rendered here: every `%d` takes the
next argument, an integer, in decimal form; `%%` is a percent sign; any other verb, an
argument of another kind or a missing argument is outside the model (`none`). -/
def Sprintf.chars : List Char → List FmtArg → Option (List Char)
  | [], _ => some []
  | '%' :: '%' :: rest, args => (Sprintf.chars rest args).map ('%' :: ·)
  | '%' :: 'd' :: rest, .number n :: args =>
    (Sprintf.chars rest args).map ((toString n).data ++ ·)
  | '%' :: _, _ => none
  | c :: rest, args => (Sprintf.chars rest args).map (c :: ·)

/-- Sprintf renders a format with its arguments. -/
def Sprintf (format : String) (args : List FmtArg) : Option String :=
  (Sprintf.chars format.data args).map String.mk

/-- The message of an error (`error.Error()`), where the model knows the text of the
format. -/
def GoError.Error (err : GoError) : Option String :=
  match err.format with
  | .literal text => Sprintf text err.args
  | .message key => key.text.bind (Sprintf · err.args)

/-! ## Step lists (`runstate.StepList`) -/

/-- Modelled from the spec: `StepList.Peek` is not in the sources; §4.7 reads the head of
the list as the next step, and the test (`steplist_test.go:94-112`) fixes the result for
the empty list, nil (here `none`), and that the list is not modified.  The method has a
pointer receiver, so the result is the step and the list afterwards. -/
def StepList.Peek (stepList : StepList) : Option Step × StepList :=
  match stepList.List with
  | [] => (none, stepList)
  | step :: _ => (some step, stepList)

/-- Modelled from the spec: `StepList.Pop` is not in the sources; §4.7 pops the head of
the list, and the test (`steplist_test.go:114-132`) fixes the result for the empty list:
nil and the list unchanged.  The result is the removed step and the list afterwards. -/
def StepList.Pop (stepList : StepList) : Option Step × StepList :=
  match stepList.List with
  | [] => (none, stepList)
  | step :: rest => (some step, ⟨rest⟩)


/-! ## JSON encoding of step lists -/

/-- A JSON document. -/
inductive JSON where
  | null
  | bool (b : Bool)
  | number (n : Int)
  | string (s : String)
  | array (items : List JSON)
  | object (fields : List (String × JSON))
deriving Repr

/-- The indentation of `json.MarshalIndent(v, "", "  ")` at a nesting depth. -/
def JSON.indentation (depth : Nat) : String :=
  String.join (List.replicate depth "  ")

/-- The characters `encoding/json` writes into a string as they are: printable ASCII
other than the quote, the backslash and the HTML characters it escapes. -/
def JSON.plainChar (c : Char) : Bool :=
  decide (32 ≤ c.toNat) && decide (c.toNat < 127) && !(['"', '\\', '<', '>', '&'].contains c)

/-- A text as a JSON string; texts with characters that need an escape are outside the
model (`none`). -/
def JSON.quote (s : String) : Option String :=
  if s.data.all JSON.plainChar then some ("\"" ++ s ++ "\"") else none

mutual
/-- The text `json.MarshalIndent(v, "", "  ")` writes for a document at a nesting
depth. -/
def JSON.render (depth : Nat) : JSON → Option String
  | .null => some "null"
  | .bool b => some (if b then "true" else "false")
  | .number n => some (toString n)
  | .string s => JSON.quote s
  | .array [] => some "[]"
  | .array (item :: items) =>
    (JSON.renderItems (depth + 1) (item :: items)).map
      (fun body => "[\n" ++ body ++ "\n" ++ JSON.indentation depth ++ "]")
  | .object [] => some "\x7b\x7d"
  | .object (field :: fields) =>
    (JSON.renderFields (depth + 1) (field :: fields)).map
      (fun body => "\x7b\n" ++ body ++ "\n" ++ JSON.indentation depth ++ "\x7d")
/-- The items of an array, one per line. -/
def JSON.renderItems (depth : Nat) : List JSON → Option String
  | [] => some ""
  | [item] => (JSON.render depth item).map (JSON.indentation depth ++ ·)
  | item :: items =>
    (JSON.render depth item).bind fun first =>
      (JSON.renderItems depth items).map fun rest =>
        JSON.indentation depth ++ first ++ ",\n" ++ rest
/-- The fields of an object, one per line. -/
def JSON.renderFields (depth : Nat) : List (String × JSON) → Option String
  | [] => some ""
  | [(key, value)] =>
    (JSON.quote key).bind fun k => (JSON.render depth value).map fun v =>
      JSON.indentation depth ++ k ++ ": " ++ v
  | (key, value) :: fields =>
    (JSON.quote key).bind fun k => (JSON.render depth value).bind fun v =>
      (JSON.renderFields depth fields).map fun rest =>
        JSON.indentation depth ++ k ++ ": " ++ v ++ ",\n" ++ rest
end

/-- MarshalIndent is `json.MarshalIndent(v, "", "  ")` on a document. -/
def JSON.MarshalIndent (v : JSON) : Option String := JSON.render 0 v

/-- The name of the variant of a step, as the `type` tag carries it (§6). -/
def Step.typeName : Step → String
  | .AbortMergeStep => "AbortMergeStep"
  | .AbortRebaseStep => "AbortRebaseStep"
  | .AddToPerennialBranchesStep .. => "AddToPerennialBranchesStep"
  | .ChangeToGitRootStep => "ChangeToGitRootStep"
  | .CheckoutStep .. => "CheckoutStep"
  | .CreateTrackingBranchStep .. => "CreateTrackingBranchStep"
  | .DeleteParentBranchStep .. => "DeleteParentBranchStep"
  | .FetchUpstreamStep .. => "FetchUpstreamStep"
  | .ForcePushBranchStep .. => "ForcePushBranchStep"
  | .MergeStep .. => "MergeStep"
  | .PushCurrentBranchStep .. => "PushCurrentBranchStep"
  | .PushTagsStep => "PushTagsStep"
  | .RebaseBranchStep .. => "RebaseBranchStep"
  | .ResetCurrentBranchToSHAStep .. => "ResetCurrentBranchToSHAStep"
  | .RestoreOpenChangesStep => "RestoreOpenChangesStep"
  | .SetParentStep .. => "SetParentStep"
  | .StashOpenChangesStep => "StashOpenChangesStep"
  | .UpdateProposalTargetStep .. => "UpdateProposalTargetStep"

/-- Modelled from the spec: the JSON encoding of the step structs is not in the sources;
§6 calls it the payload of the step.  It is the object of the fields of the struct in
their order, names and SHAs written as strings, as the test
(`steplist_test.go:197-210`) writes `Hard` and `SHA`; a step without fields is the empty
object (`steplist_test.go:84-90`). -/
def Step.data : Step → JSON
  | .AbortMergeStep => .object []
  | .AbortRebaseStep => .object []
  | .AddToPerennialBranchesStep branch => .object [("Branch", .string branch.id)]
  | .ChangeToGitRootStep => .object []
  | .CheckoutStep branch => .object [("Branch", .string branch.id)]
  | .CreateTrackingBranchStep branch noPushHook =>
    .object [("Branch", .string branch.id), ("NoPushHook", .bool noPushHook)]
  | .DeleteParentBranchStep branch parent =>
    .object [("Branch", .string branch.id), ("Parent", .string parent.id)]
  | .FetchUpstreamStep branch => .object [("Branch", .string branch.id)]
  | .ForcePushBranchStep branch noPushHook =>
    .object [("Branch", .string branch.id), ("NoPushHook", .bool noPushHook)]
  | .MergeStep branch => .object [("Branch", .string branch.id)]
  | .PushCurrentBranchStep branch noPushHook undoable =>
    .object [("CurrentBranch", .string branch.id), ("NoPushHook", .bool noPushHook),
      ("Undoable", .bool undoable)]
  | .PushTagsStep => .object []
  | .RebaseBranchStep branch => .object [("Branch", .string branch.id)]
  | .ResetCurrentBranchToSHAStep hard sha =>
    .object [("Hard", .bool hard), ("SHA", .string sha.id)]
  | .RestoreOpenChangesStep => .object []
  | .SetParentStep branch parent =>
    .object [("Branch", .string branch.id), ("ParentBranch", .string parent.id)]
  | .StashOpenChangesStep => .object []
  | .UpdateProposalTargetStep number newTarget existingTarget =>
    .object [("ProposalNumber", .number number), ("NewTarget", .string newTarget.id),
      ("ExistingTarget", .string existingTarget.id)]

/-- The ways loading a step list fails. -/
inductive UnmarshalError where
  | UnknownStepType (name : String)
  | Malformed
deriving DecidableEq, Repr

/-- A text field of a payload; an absent field leaves the zero value, as
`json.Unmarshal` does. -/
def JSON.textField (fields : List (String × JSON)) (key : String) :
    Except UnmarshalError String :=
  match fields.lookup key with
  | none => .ok ""
  | some (.string s) => .ok s
  | some _ => .error .Malformed

/-- A boolean field of a payload; an absent field leaves `false`. -/
def JSON.boolField (fields : List (String × JSON)) (key : String) :
    Except UnmarshalError Bool :=
  match fields.lookup key with
  | none => .ok false
  | some (.bool b) => .ok b
  | some _ => .error .Malformed

/-- An integer field of a payload; an absent field leaves `0`. -/
def JSON.numberField (fields : List (String × JSON)) (key : String) :
    Except UnmarshalError Int :=
  match fields.lookup key with
  | none => .ok 0
  | some (.number n) => .ok n
  | some _ => .error .Malformed

/-- Modelled from the spec: the decoding of a tagged step is not in the sources; §6: the
`type` tag names the variant, the `data` object holds its payload, and an unknown `type`
is a hard error. -/
def Step.fromJSON (typeName : String) (fields : List (String × JSON)) :
    Except UnmarshalError Step :=
  if typeName = "AbortMergeStep" then .ok .AbortMergeStep
  else if typeName = "AbortRebaseStep" then .ok .AbortRebaseStep
  else if typeName = "AddToPerennialBranchesStep" then do
    let branch ← JSON.textField fields "Branch"
    pure (.AddToPerennialBranchesStep ⟨branch⟩)
  else if typeName = "ChangeToGitRootStep" then .ok .ChangeToGitRootStep
  else if typeName = "CheckoutStep" then do
    let branch ← JSON.textField fields "Branch"
    pure (.CheckoutStep ⟨branch⟩)
  else if typeName = "CreateTrackingBranchStep" then do
    let branch ← JSON.textField fields "Branch"
    let noPushHook ← JSON.boolField fields "NoPushHook"
    pure (.CreateTrackingBranchStep ⟨branch⟩ noPushHook)
  else if typeName = "DeleteParentBranchStep" then do
    let branch ← JSON.textField fields "Branch"
    let parent ← JSON.textField fields "Parent"
    pure (.DeleteParentBranchStep ⟨branch⟩ ⟨parent⟩)
  else if typeName = "FetchUpstreamStep" then do
    let branch ← JSON.textField fields "Branch"
    pure (.FetchUpstreamStep ⟨branch⟩)
  else if typeName = "ForcePushBranchStep" then do
    let branch ← JSON.textField fields "Branch"
    let noPushHook ← JSON.boolField fields "NoPushHook"
    pure (.ForcePushBranchStep ⟨branch⟩ noPushHook)
  else if typeName = "MergeStep" then do
    let branch ← JSON.textField fields "Branch"
    pure (.MergeStep ⟨branch⟩)
  else if typeName = "PushCurrentBranchStep" then do
    let branch ← JSON.textField fields "CurrentBranch"
    let noPushHook ← JSON.boolField fields "NoPushHook"
    let undoable ← JSON.boolField fields "Undoable"
    pure (.PushCurrentBranchStep ⟨branch⟩ noPushHook undoable)
  else if typeName = "PushTagsStep" then .ok .PushTagsStep
  else if typeName = "RebaseBranchStep" then do
    let branch ← JSON.textField fields "Branch"
    pure (.RebaseBranchStep ⟨branch⟩)
  else if typeName = "ResetCurrentBranchToSHAStep" then do
    let hard ← JSON.boolField fields "Hard"
    let sha ← JSON.textField fields "SHA"
    pure (.ResetCurrentBranchToSHAStep hard ⟨sha⟩)
  else if typeName = "RestoreOpenChangesStep" then .ok .RestoreOpenChangesStep
  else if typeName = "SetParentStep" then do
    let branch ← JSON.textField fields "Branch"
    let parent ← JSON.textField fields "ParentBranch"
    pure (.SetParentStep ⟨branch⟩ ⟨parent⟩)
  else if typeName = "StashOpenChangesStep" then .ok .StashOpenChangesStep
  else if typeName = "UpdateProposalTargetStep" then do
    let number ← JSON.numberField fields "ProposalNumber"
    let newTarget ← JSON.textField fields "NewTarget"
    let existingTarget ← JSON.textField fields "ExistingTarget"
    pure (.UpdateProposalTargetStep number ⟨newTarget⟩ ⟨existingTarget⟩)
  else .error (.UnknownStepType typeName)

/-- The tagged form of one step (§6): its payload under `data`, the name of its variant
under `type`, in the order of the test (`steplist_test.go:199-205`). -/
def Step.tagged (step : Step) : JSON :=
  .object [("data", step.data), ("type", .string step.typeName)]

/-- Modelled from the spec: `StepList.MarshalJSON` is not in the sources; §6: "each step
list is a JSON array of objects" with the `type` and the `data` of a step.  This is the
encoding a step list gets inside a run state (`steplist_test.go:81-83`). -/
def StepList.MarshalJSON (stepList : StepList) : JSON :=
  .array (stepList.List.map Step.tagged)

/-- Decodes one tagged step: an object with a text `type` and an object `data`. -/
def Step.untag : JSON → Except UnmarshalError Step
  | .object fields =>
    match fields.lookup "type", fields.lookup "data" with
    | some (.string typeName), some (.object payload) => Step.fromJSON typeName payload
    | _, _ => .error .Malformed
  | _ => .error .Malformed

/-- Decodes the items of a tagged array, failing at the first item that fails. -/
def Step.untagAll : List JSON → Except UnmarshalError (List Step)
  | [] => .ok []
  | item :: items =>
    match Step.untag item with
    | .error err => .error err
    | .ok step =>
      match Step.untagAll items with
      | .error err => .error err
      | .ok steps => .ok (step :: steps)

/-- Modelled from the spec: `StepList.UnmarshalJSON` is not in the sources; §6 and the
test (`steplist_test.go:195-222`): it reads a JSON array of tagged steps; anything else,
and an unknown `type`, is an error. -/
def StepList.UnmarshalJSON : JSON → Except UnmarshalError StepList
  | .array items =>
    match Step.untagAll items with
    | .error err => .error err
    | .ok steps => .ok ⟨steps⟩
  | _ => .error .Malformed

/-- Modelled from the spec: what `encoding/json` writes for a StepList value on its own
is not in the sources; §9 (a) and the test (`steplist_test.go:73-92`): "StepList alone
does not emit step type tags": it is the struct with its field `List`, each step
written as its bare payload. -/
def StepList.jsonMarshal (stepList : StepList) : JSON :=
  .object [("List", .array (stepList.List.map Step.data))]

/-- The list the test `TestStepList/MarshalJSON` serialises (`steplist_test.go:75-78`). -/
def marshalTestList : StepList :=
  ⟨[.AbortMergeStep, .StashOpenChangesStep]⟩

/-- The text the test `TestStepList/MarshalJSON` expects (`steplist_test.go:84-90`). -/
def marshalTestWant : String :=
  "\x7b\n  \"List\": [\n    \x7b\x7d,\n    \x7b\x7d\n  ]\n\x7d"

/-- The document the test `TestStepList/UnmarshalJSON` loads
(`steplist_test.go:197-210`). -/
def unmarshalTestGive : JSON :=
  .array
    [ .object
        [("data", .object [("Hard", .bool false), ("SHA", .string "abcdef")]),
          ("type", .string "ResetCurrentBranchToSHAStep")],
      .object [("data", .object []), ("type", .string "StashOpenChangesStep")] ]


/-! ## Vocabulary of the proofs -/

/-- The builder with `steps` appended and `err` latched unless an error is latched
already: the joint effect of a run of `Add` and `Fail` calls. -/
def StepListBuilder.extend (slb : StepListBuilder) (steps : List Step) (err : Option GoError) :
    StepListBuilder :=
  ⟨⟨slb.list.List ++ steps⟩, slb.deferredError.or err⟩

/-- A builder operation that only appends steps and latches errors: what it does to any
builder is what it does to the empty one, put behind the steps already there. -/
def Appends (f : StepListBuilder → StepListBuilder) : Prop :=
  ∀ slb, f slb = slb.extend (f StepListBuilder.empty).list.List
    (f StepListBuilder.empty).deferredError

/-- The error `syncBranchSteps` latches for one branch, if any: what it leaves in an
empty builder. -/
def branchFailure (args : syncBranchStepsArgs) : Option GoError :=
  (syncBranchSteps StepListBuilder.empty args).deferredError

/-- The branch a CheckoutStep checks out, for reading the checkouts off a step list. -/
def Step.checkoutTarget : Step → Option LocalBranchName
  | .CheckoutStep branch => some branch
  | _ => none

/-- The steps that push a branch: a new tracking branch, a push or a force push. -/
def Step.isPush : Step → Bool
  | .CreateTrackingBranchStep .. => true
  | .PushCurrentBranchStep .. => true
  | .ForcePushBranchStep .. => true
  | _ => false


/-- The format of the error the planner latches for an unknown strategy value. -/
def unknownStrategyFormat : Format := .literal "unknown syncStrategy value: %q"

/-- Puts a rebase where a step merges, and leaves every other step as it is. -/
def Step.rebaseForMerge : Step → Step
  | .MergeStep branch => .RebaseBranchStep branch
  | step => step


/-! # Theorems -/

/-! ## The builder operations append -/

theorem StepListBuilder.extend_extend (slb : StepListBuilder) (l₁ l₂ : List Step)
    (e₁ e₂ : Option GoError) :
    (slb.extend l₁ e₁).extend l₂ e₂ = slb.extend (l₁ ++ l₂) (e₁.or e₂) := by
  obtain ⟨⟨l⟩, e⟩ := slb
  cases e <;> cases e₁ <;> simp [StepListBuilder.extend, Option.or]

theorem StepListBuilder.empty_extend (l : List Step) (e : Option GoError) :
    StepListBuilder.empty.extend l e = ⟨⟨l⟩, e⟩ := by
  cases e <;> simp [StepListBuilder.extend, StepListBuilder.empty, Option.or]

theorem StepListBuilder.extend_nil_none (slb : StepListBuilder) : slb.extend [] none = slb := by
  obtain ⟨⟨l⟩, e⟩ := slb
  cases e <;> simp [StepListBuilder.extend, Option.or]

theorem Appends.id : Appends (fun slb => slb) := by
  intro slb
  simp [StepListBuilder.empty, StepListBuilder.extend_nil_none]

theorem Appends.add (step : Step) : Appends (fun slb => slb.Add step) := by
  intro slb
  obtain ⟨⟨l⟩, e⟩ := slb
  cases e <;> simp [StepListBuilder.Add, StepListBuilder.extend, StepListBuilder.empty, Option.or]

theorem Appends.fail (format : String) (a : List FmtArg) :
    Appends (fun slb => slb.Fail format a) := by
  intro slb
  obtain ⟨⟨l⟩, e⟩ := slb
  cases e <;> simp [StepListBuilder.Fail, StepListBuilder.extend, StepListBuilder.empty, Option.or]

theorem Appends.comp {f g : StepListBuilder → StepListBuilder} (hf : Appends f) (hg : Appends g) :
    Appends (fun slb => g (f slb)) := by
  intro slb
  have h₁ : g (f StepListBuilder.empty)
      = ⟨⟨(f StepListBuilder.empty).list.List ++ (g StepListBuilder.empty).list.List⟩,
          (f StepListBuilder.empty).deferredError.or (g StepListBuilder.empty).deferredError⟩ := by
    rw [hg (f StepListBuilder.empty)]
    rfl
  show g (f slb) = slb.extend (g (f StepListBuilder.empty)).list.List
    (g (f StepListBuilder.empty)).deferredError
  rw [h₁, hg (f slb), hf slb, StepListBuilder.extend_extend]

theorem Appends.ite {f g : StepListBuilder → StepListBuilder} (c : Prop) [Decidable c]
    (hf : Appends f) (hg : Appends g) : Appends (fun slb => if c then f slb else g slb) := by
  by_cases h : c
  · simpa [h] using hf
  · simpa [h] using hg

theorem Appends.list_eq {f : StepListBuilder → StepListBuilder} (hf : Appends f)
    (slb : StepListBuilder) :
    (f slb).list.List = slb.list.List ++ (f StepListBuilder.empty).list.List := by
  rw [hf slb]
  rfl

theorem Appends.error_eq {f : StepListBuilder → StepListBuilder} (hf : Appends f)
    (slb : StepListBuilder) :
    (f slb).deferredError = slb.deferredError.or (f StepListBuilder.empty).deferredError := by
  rw [hf slb]
  rfl

theorem pullTrackingBranchOfCurrentFeatureBranchStep_appends (trackingBranch : RemoteBranchName)
    (strategy : SyncStrategy) :
    Appends (fun slb => pullTrackingBranchOfCurrentFeatureBranchStep slb trackingBranch strategy) :=
  Appends.ite _ (Appends.add _) (Appends.ite _ (Appends.add _) (Appends.fail _ _))

theorem pullParentBranchOfCurrentFeatureBranchStep_appends (parentBranch : LocalBranchName)
    (strategy : SyncStrategy) :
    Appends (fun slb => pullParentBranchOfCurrentFeatureBranchStep slb parentBranch strategy) :=
  Appends.ite _ (Appends.add _) (Appends.ite _ (Appends.add _) (Appends.fail _ _))

theorem updateCurrentPerennialBranchStep_appends (otherBranch : RemoteBranchName)
    (strategy : PullBranchStrategy) :
    Appends (fun slb => updateCurrentPerennialBranchStep slb otherBranch strategy) :=
  Appends.ite _ (Appends.add _) (Appends.ite _ (Appends.add _) (Appends.fail _ _))

theorem pushFeatureBranchSteps_appends (branch : LocalBranchName) (syncStrategy : SyncStrategy)
    (pushHook : Bool) :
    Appends (fun slb => pushFeatureBranchSteps slb branch syncStrategy pushHook) :=
  Appends.ite _ (Appends.add _) (Appends.ite _ (Appends.add _) (Appends.fail _ _))

theorem syncFeatureBranchSteps_appends (branch : BranchInfo) (lineage : Lineage)
    (syncStrategy : SyncStrategy) :
    Appends (fun slb => syncFeatureBranchSteps slb branch lineage syncStrategy) :=
  Appends.comp
    (Appends.ite _ (pullTrackingBranchOfCurrentFeatureBranchStep_appends _ _) Appends.id)
    (pullParentBranchOfCurrentFeatureBranchStep_appends _ _)

theorem syncPerennialBranchSteps_appends (args : syncPerennialBranchStepsArgs) :
    Appends (fun slb => syncPerennialBranchSteps slb args) :=
  Appends.comp
    (Appends.ite _ (updateCurrentPerennialBranchStep_appends _ _) Appends.id)
    (Appends.ite _ (Appends.comp (Appends.add _) (Appends.add _)) Appends.id)

theorem syncBranchSteps_appends (args : syncBranchStepsArgs) :
    Appends (fun slb => syncBranchSteps slb args) :=
  Appends.ite _ Appends.id
    (Appends.comp
      (Appends.comp (Appends.add _)
        (Appends.ite _ (syncFeatureBranchSteps_appends _ _ _) (syncPerennialBranchSteps_appends _)))
      (Appends.ite _
        (Appends.ite _ (Appends.add _)
          (Appends.ite _ (Appends.add _) (pushFeatureBranchSteps_appends _ _ _)))
        Appends.id))


theorem syncBranchSteps_list (slb : StepListBuilder) (args : syncBranchStepsArgs) :
    (syncBranchSteps slb args).list.List = slb.list.List ++ branchBlock args :=
  (syncBranchSteps_appends args).list_eq slb

theorem syncBranchSteps_error (slb : StepListBuilder) (args : syncBranchStepsArgs) :
    (syncBranchSteps slb args).deferredError = slb.deferredError.or (branchFailure args) :=
  (syncBranchSteps_appends args).error_eq slb

/-- The loop of `syncBranchesSteps` puts the blocks of the branches behind one another. -/
theorem syncLoop_list (config : syncConfig) (bs : BranchInfos) (slb : StepListBuilder) :
    (bs.foldl (fun list branch => syncBranchSteps list (config.argsFor branch)) slb).list.List
      = slb.list.List ++ bs.flatMap (fun b => branchBlock (config.argsFor b)) := by
  induction bs generalizing slb with
  | nil => simp
  | cons b bs ih =>
    rw [List.foldl_cons, ih, syncBranchSteps_list, List.flatMap_cons, List.append_assoc]

/-- The loop of `syncBranchesSteps` latches the error of the first branch that fails. -/
theorem syncLoop_error (config : syncConfig) (bs : BranchInfos) (slb : StepListBuilder) :
    (bs.foldl (fun list branch => syncBranchSteps list (config.argsFor branch)) slb).deferredError
      = slb.deferredError.or (bs.findSome? (fun b => branchFailure (config.argsFor b))) := by
  induction bs generalizing slb with
  | nil =>
    obtain ⟨l, e⟩ := slb
    cases e <;> simp [Option.or]
  | cons b bs ih =>
    rw [List.foldl_cons, ih, syncBranchSteps_error, List.findSome?_cons]
    cases slb.deferredError <;> cases branchFailure (config.argsFor b) <;> simp [Option.or]

theorem beforeWrap_list (config : syncConfig) :
    (syncBranchesSteps.beforeWrap config).list.List
      = config.branchesToSync.flatMap (fun b => branchBlock (config.argsFor b))
        ++ .CheckoutStep config.branches.Initial
          :: (if config.remotes.HasOrigin && config.shouldPushTags && !config.isOffline
              then [Step.PushTagsStep] else []) := by
  unfold syncBranchesSteps.beforeWrap
  split_ifs <;>
    simp [StepListBuilder.Add, syncLoop_list, StepListBuilder.empty]

theorem beforeWrap_error (config : syncConfig) :
    (syncBranchesSteps.beforeWrap config).deferredError
      = config.branchesToSync.findSome? (fun b => branchFailure (config.argsFor b)) := by
  unfold syncBranchesSteps.beforeWrap
  split_ifs <;>
    simp [StepListBuilder.Add, syncLoop_error, StepListBuilder.empty, Option.or]

theorem Wrap_list (slb : StepListBuilder) (options : WrapOptions) :
    (slb.Wrap options).list.List
      = ((if options.StashOpenChanges then [Step.StashOpenChangesStep] else [])
          ++ (if options.RunInGitRoot then [Step.ChangeToGitRootStep] else []))
        ++ slb.list.List
        ++ ([Step.CheckoutStep options.PreviousBranch, Step.CheckoutStep options.InitialBranch]
          ++ (if options.StashOpenChanges then [Step.RestoreOpenChangesStep] else [])) := by
  unfold StepListBuilder.Wrap
  split_ifs <;> simp

theorem Wrap_error (slb : StepListBuilder) (options : WrapOptions) :
    (slb.Wrap options).deferredError = slb.deferredError := rfl

theorem Result_ok_iff (slb : StepListBuilder) (l : StepList) :
    slb.Result = .ok l ↔ slb.deferredError = none ∧ slb.list = l := by
  unfold StepListBuilder.Result
  cases slb.deferredError <;> simp

theorem Result_error_iff (slb : StepListBuilder) (e : GoError) :
    slb.Result = .error e ↔ slb.deferredError = some e := by
  unfold StepListBuilder.Result
  cases slb.deferredError <;> simp

/-- The list `syncBranchesSteps` returns is the list built before `Wrap`, between the
steps `Wrap` puts in front of it and behind it. -/
theorem syncBranchesSteps_ok_list (config : syncConfig) (l : StepList)
    (h : syncBranchesSteps config = .ok l) :
    l.List = ((if config.hasOpenChanges then [Step.StashOpenChangesStep] else [])
          ++ [Step.ChangeToGitRootStep])
        ++ (syncBranchesSteps.beforeWrap config).list.List
        ++ ([Step.CheckoutStep config.previousBranch, Step.CheckoutStep config.branches.Initial]
          ++ (if config.hasOpenChanges then [Step.RestoreOpenChangesStep] else [])) := by
  unfold syncBranchesSteps at h
  rw [Result_ok_iff] at h
  rw [← h.2, Wrap_list]
  simp [syncBranchesSteps.wrapOptions]


/-! ## Closed forms of the per-branch steps -/

theorem pullTrackingBranchOfCurrentFeatureBranchStep_steps (trackingBranch : RemoteBranchName)
    (strategy : SyncStrategy) :
    (pullTrackingBranchOfCurrentFeatureBranchStep StepListBuilder.empty trackingBranch
        strategy).list.List
      = if strategy = SyncStrategyMerge then [Step.MergeStep trackingBranch.BranchName]
        else if strategy = SyncStrategyRebase then [Step.RebaseBranchStep trackingBranch.BranchName]
        else [] := by
  unfold pullTrackingBranchOfCurrentFeatureBranchStep
  split_ifs <;> rfl

theorem pullParentBranchOfCurrentFeatureBranchStep_steps (parentBranch : LocalBranchName)
    (strategy : SyncStrategy) :
    (pullParentBranchOfCurrentFeatureBranchStep StepListBuilder.empty parentBranch
        strategy).list.List
      = if strategy = SyncStrategyMerge then [Step.MergeStep parentBranch.BranchName]
        else if strategy = SyncStrategyRebase then [Step.RebaseBranchStep parentBranch.BranchName]
        else [] := by
  unfold pullParentBranchOfCurrentFeatureBranchStep
  split_ifs <;> rfl

theorem updateCurrentPerennialBranchStep_steps (otherBranch : RemoteBranchName)
    (strategy : PullBranchStrategy) :
    (updateCurrentPerennialBranchStep StepListBuilder.empty otherBranch strategy).list.List
      = if strategy = PullBranchStrategyMerge then [Step.MergeStep otherBranch.BranchName]
        else if strategy = PullBranchStrategyRebase
          then [Step.RebaseBranchStep otherBranch.BranchName]
        else [] := by
  unfold updateCurrentPerennialBranchStep
  split_ifs <;> rfl

theorem pushFeatureBranchSteps_steps (branch : LocalBranchName) (syncStrategy : SyncStrategy)
    (pushHook : Bool) :
    (pushFeatureBranchSteps StepListBuilder.empty branch syncStrategy pushHook).list.List
      = if syncStrategy = SyncStrategyMerge
          then [Step.PushCurrentBranchStep branch (!pushHook) false]
        else if syncStrategy = SyncStrategyRebase then [Step.ForcePushBranchStep branch false]
        else [] := by
  unfold pushFeatureBranchSteps
  split_ifs <;> rfl

theorem pullTrackingBranchOfCurrentFeatureBranchStep_list (slb : StepListBuilder)
    (trackingBranch : RemoteBranchName) (strategy : SyncStrategy) :
    (pullTrackingBranchOfCurrentFeatureBranchStep slb trackingBranch strategy).list.List
      = slb.list.List ++
        (if strategy = SyncStrategyMerge then [Step.MergeStep trackingBranch.BranchName]
        else if strategy = SyncStrategyRebase then [Step.RebaseBranchStep trackingBranch.BranchName]
        else []) := by
  rw [(pullTrackingBranchOfCurrentFeatureBranchStep_appends _ _).list_eq,
    pullTrackingBranchOfCurrentFeatureBranchStep_steps]

theorem pullParentBranchOfCurrentFeatureBranchStep_list (slb : StepListBuilder)
    (parentBranch : LocalBranchName) (strategy : SyncStrategy) :
    (pullParentBranchOfCurrentFeatureBranchStep slb parentBranch strategy).list.List
      = slb.list.List ++
        (if strategy = SyncStrategyMerge then [Step.MergeStep parentBranch.BranchName]
        else if strategy = SyncStrategyRebase then [Step.RebaseBranchStep parentBranch.BranchName]
        else []) := by
  rw [(pullParentBranchOfCurrentFeatureBranchStep_appends _ _).list_eq,
    pullParentBranchOfCurrentFeatureBranchStep_steps]

theorem updateCurrentPerennialBranchStep_list (slb : StepListBuilder)
    (otherBranch : RemoteBranchName) (strategy : PullBranchStrategy) :
    (updateCurrentPerennialBranchStep slb otherBranch strategy).list.List
      = slb.list.List ++
        (if strategy = PullBranchStrategyMerge then [Step.MergeStep otherBranch.BranchName]
        else if strategy = PullBranchStrategyRebase
          then [Step.RebaseBranchStep otherBranch.BranchName]
        else []) := by
  rw [(updateCurrentPerennialBranchStep_appends _ _).list_eq,
    updateCurrentPerennialBranchStep_steps]

theorem pushFeatureBranchSteps_list (slb : StepListBuilder) (branch : LocalBranchName)
    (syncStrategy : SyncStrategy) (pushHook : Bool) :
    (pushFeatureBranchSteps slb branch syncStrategy pushHook).list.List
      = slb.list.List ++
        (if syncStrategy = SyncStrategyMerge
          then [Step.PushCurrentBranchStep branch (!pushHook) false]
        else if syncStrategy = SyncStrategyRebase then [Step.ForcePushBranchStep branch false]
        else []) := by
  rw [(pushFeatureBranchSteps_appends _ _ _).list_eq, pushFeatureBranchSteps_steps]

/-- The steps of `syncFeatureBranchSteps`: the pull of the tracking branch, if there is
one, then the pull of the parent. -/
theorem syncFeatureBranchSteps_list (slb : StepListBuilder) (branch : BranchInfo)
    (lineage : Lineage) (syncStrategy : SyncStrategy) :
    (syncFeatureBranchSteps slb branch lineage syncStrategy).list.List
      = slb.list.List ++
        ((if branch.HasTrackingBranch = true then
            (if syncStrategy = SyncStrategyMerge then [Step.MergeStep branch.RemoteName.BranchName]
            else if syncStrategy = SyncStrategyRebase
              then [Step.RebaseBranchStep branch.RemoteName.BranchName]
            else [])
          else [])
        ++ (if syncStrategy = SyncStrategyMerge
              then [Step.MergeStep (lineage.Parent branch.LocalName).BranchName]
            else if syncStrategy = SyncStrategyRebase
              then [Step.RebaseBranchStep (lineage.Parent branch.LocalName).BranchName]
            else [])) := by
  unfold syncFeatureBranchSteps
  rw [pullParentBranchOfCurrentFeatureBranchStep_list]
  cases branch.HasTrackingBranch <;>
    simp [pullTrackingBranchOfCurrentFeatureBranchStep_list]

/-- The steps of `syncPerennialBranchSteps`: the pull of the tracking branch, if there is
one, then the upstream pair for the main branch. -/
theorem syncPerennialBranchSteps_list (slb : StepListBuilder)
    (args : syncPerennialBranchStepsArgs) :
    (syncPerennialBranchSteps slb args).list.List
      = slb.list.List ++
        ((if args.branch.HasTrackingBranch = true then
            (if args.pullBranchStrategy = PullBranchStrategyMerge
              then [Step.MergeStep args.branch.RemoteName.BranchName]
            else if args.pullBranchStrategy = PullBranchStrategyRebase
              then [Step.RebaseBranchStep args.branch.RemoteName.BranchName]
            else [])
          else [])
        ++ (if args.branch.LocalName = args.mainBranch ∧ args.hasUpstream = true
              ∧ args.shouldSyncUpstream = true then
            [Step.FetchUpstreamStep args.mainBranch,
              Step.RebaseBranchStep (NewBranchName ("upstream/" ++ args.mainBranch.String))]
          else [])) := by
  unfold syncPerennialBranchSteps
  by_cases hm : args.branch.LocalName = args.mainBranch <;>
    cases args.hasUpstream <;>
    cases args.shouldSyncUpstream <;>
    cases args.branch.HasTrackingBranch <;>
    simp [hm, StepListBuilder.Add, updateCurrentPerennialBranchStep_list]

/-- The steps `syncBranchSteps` emits for one branch, in closed form: nothing for a
non-feature branch when origin is missing; otherwise the checkout, the pulls and the
push. -/
theorem branchBlock_eq (args : syncBranchStepsArgs) :
    branchBlock args
      = if args.branchTypes.IsFeatureBranch args.branch.LocalName = false
            ∧ args.remotes.HasOrigin = false then []
        else
          Step.CheckoutStep args.branch.LocalName
            :: ((if args.branchTypes.IsFeatureBranch args.branch.LocalName = true then
                  (if args.branch.HasTrackingBranch = true then
                      (if args.syncStrategy = SyncStrategyMerge
                        then [Step.MergeStep args.branch.RemoteName.BranchName]
                      else if args.syncStrategy = SyncStrategyRebase
                        then [Step.RebaseBranchStep args.branch.RemoteName.BranchName]
                      else [])
                    else [])
                  ++ (if args.syncStrategy = SyncStrategyMerge
                        then [Step.MergeStep (args.lineage.Parent args.branch.LocalName).BranchName]
                      else if args.syncStrategy = SyncStrategyRebase
                        then [Step.RebaseBranchStep
                          (args.lineage.Parent args.branch.LocalName).BranchName]
                      else [])
                else
                  (if args.branch.HasTrackingBranch = true then
                      (if args.pullBranchStrategy = PullBranchStrategyMerge
                        then [Step.MergeStep args.branch.RemoteName.BranchName]
                      else if args.pullBranchStrategy = PullBranchStrategyRebase
                        then [Step.RebaseBranchStep args.branch.RemoteName.BranchName]
                      else [])
                    else [])
                  ++ (if args.branch.LocalName = args.mainBranch ∧ args.remotes.HasUpstream = true
                        ∧ args.shouldSyncUpstream = true then
                      [Step.FetchUpstreamStep args.mainBranch,
                        Step.RebaseBranchStep
                          (NewBranchName ("upstream/" ++ args.mainBranch.String))]
                    else []))
              ++ (if args.pushBranch = true ∧ args.remotes.HasOrigin = true
                    ∧ args.isOffline = false then
                  (if args.branch.HasTrackingBranch = false then
                    [Step.CreateTrackingBranchStep args.branch.LocalName false]
                  else if args.branchTypes.IsFeatureBranch args.branch.LocalName = false then
                    [Step.PushCurrentBranchStep args.branch.LocalName false false]
                  else
                    (if args.syncStrategy = SyncStrategyMerge
                      then [Step.PushCurrentBranchStep args.branch.LocalName (!args.pushHook) false]
                    else if args.syncStrategy = SyncStrategyRebase
                      then [Step.ForcePushBranchStep args.branch.LocalName false]
                    else []))
                else [])) := by
  unfold branchBlock syncBranchSteps
  cases hf : args.branchTypes.IsFeatureBranch args.branch.LocalName <;>
    cases ho : args.remotes.HasOrigin <;>
    cases hp : args.pushBranch <;>
    cases hoff : args.isOffline <;>
    cases ht : args.branch.HasTrackingBranch <;>
    simp [pushFeatureBranchSteps_list, syncFeatureBranchSteps_list, syncPerennialBranchSteps_list,
      StepListBuilder.Add, StepListBuilder.empty, ht]


/-! ## Closed forms of the latched error -/

theorem pullTrackingBranchOfCurrentFeatureBranchStep_error (slb : StepListBuilder)
    (trackingBranch : RemoteBranchName) (strategy : SyncStrategy) :
    (pullTrackingBranchOfCurrentFeatureBranchStep slb trackingBranch strategy).deferredError
      = slb.deferredError.or
        (if strategy = SyncStrategyMerge ∨ strategy = SyncStrategyRebase then none
        else some ⟨unknownStrategyFormat, [.text strategy.name]⟩) := by
  rw [(pullTrackingBranchOfCurrentFeatureBranchStep_appends _ _).error_eq]
  unfold pullTrackingBranchOfCurrentFeatureBranchStep
  obtain ⟨l, e⟩ := slb
  cases e <;> split_ifs <;>
    simp_all [StepListBuilder.Add, StepListBuilder.Fail, StepListBuilder.empty,
      unknownStrategyFormat, Option.or]

theorem pullParentBranchOfCurrentFeatureBranchStep_error (slb : StepListBuilder)
    (parentBranch : LocalBranchName) (strategy : SyncStrategy) :
    (pullParentBranchOfCurrentFeatureBranchStep slb parentBranch strategy).deferredError
      = slb.deferredError.or
        (if strategy = SyncStrategyMerge ∨ strategy = SyncStrategyRebase then none
        else some ⟨unknownStrategyFormat, [.text strategy.name]⟩) := by
  rw [(pullParentBranchOfCurrentFeatureBranchStep_appends _ _).error_eq]
  unfold pullParentBranchOfCurrentFeatureBranchStep
  obtain ⟨l, e⟩ := slb
  cases e <;> split_ifs <;>
    simp_all [StepListBuilder.Add, StepListBuilder.Fail, StepListBuilder.empty,
      unknownStrategyFormat, Option.or]

theorem updateCurrentPerennialBranchStep_error (slb : StepListBuilder)
    (otherBranch : RemoteBranchName) (strategy : PullBranchStrategy) :
    (updateCurrentPerennialBranchStep slb otherBranch strategy).deferredError
      = slb.deferredError.or
        (if strategy = PullBranchStrategyMerge ∨ strategy = PullBranchStrategyRebase then none
        else some ⟨unknownStrategyFormat, [.text strategy.name]⟩) := by
  rw [(updateCurrentPerennialBranchStep_appends _ _).error_eq]
  unfold updateCurrentPerennialBranchStep
  obtain ⟨l, e⟩ := slb
  cases e <;> split_ifs <;>
    simp_all [StepListBuilder.Add, StepListBuilder.Fail, StepListBuilder.empty,
      unknownStrategyFormat, Option.or]

theorem pushFeatureBranchSteps_error (slb : StepListBuilder) (branch : LocalBranchName)
    (syncStrategy : SyncStrategy) (pushHook : Bool) :
    (pushFeatureBranchSteps slb branch syncStrategy pushHook).deferredError
      = slb.deferredError.or
        (if syncStrategy = SyncStrategyMerge ∨ syncStrategy = SyncStrategyRebase then none
        else some ⟨unknownStrategyFormat, [.text syncStrategy.name]⟩) := by
  rw [(pushFeatureBranchSteps_appends _ _ _).error_eq]
  unfold pushFeatureBranchSteps
  obtain ⟨l, e⟩ := slb
  cases e <;> split_ifs <;>
    simp_all [StepListBuilder.Add, StepListBuilder.Fail, StepListBuilder.empty,
      unknownStrategyFormat, Option.or]

theorem syncFeatureBranchSteps_error (slb : StepListBuilder) (branch : BranchInfo)
    (lineage : Lineage) (syncStrategy : SyncStrategy) :
    (syncFeatureBranchSteps slb branch lineage syncStrategy).deferredError
      = slb.deferredError.or
        (if syncStrategy = SyncStrategyMerge ∨ syncStrategy = SyncStrategyRebase then none
        else some ⟨unknownStrategyFormat, [.text syncStrategy.name]⟩) := by
  unfold syncFeatureBranchSteps
  rw [pullParentBranchOfCurrentFeatureBranchStep_error]
  obtain ⟨l, e⟩ := slb
  cases branch.HasTrackingBranch <;> cases e <;>
    by_cases h : syncStrategy = SyncStrategyMerge ∨ syncStrategy = SyncStrategyRebase <;>
    simp [pullTrackingBranchOfCurrentFeatureBranchStep_error, h, Option.or]

theorem syncPerennialBranchSteps_error (slb : StepListBuilder)
    (args : syncPerennialBranchStepsArgs) :
    (syncPerennialBranchSteps slb args).deferredError
      = slb.deferredError.or
        (if args.branch.HasTrackingBranch = true
            ∧ ¬ (args.pullBranchStrategy = PullBranchStrategyMerge
              ∨ args.pullBranchStrategy = PullBranchStrategyRebase)
          then some ⟨unknownStrategyFormat, [.text args.pullBranchStrategy.name]⟩
        else none) := by
  unfold syncPerennialBranchSteps
  obtain ⟨l, e⟩ := slb
  by_cases h : args.pullBranchStrategy = PullBranchStrategyMerge
      ∨ args.pullBranchStrategy = PullBranchStrategyRebase <;>
    cases (decide (args.branch.LocalName = args.mainBranch) && args.hasUpstream
      && args.shouldSyncUpstream) <;>
    cases args.branch.HasTrackingBranch <;> cases e <;>
    simp [updateCurrentPerennialBranchStep_error, h, Option.or, StepListBuilder.Add]

/-- The error `syncBranchSteps` latches for one branch, in closed form: a feature branch
with an unknown sync strategy, or a synced non-feature branch with a tracking branch and
an unknown pull-branch strategy. -/
theorem branchFailure_eq (args : syncBranchStepsArgs) :
    branchFailure args
      = if args.branchTypes.IsFeatureBranch args.branch.LocalName = true then
          (if args.syncStrategy = SyncStrategyMerge ∨ args.syncStrategy = SyncStrategyRebase
            then none
          else some ⟨unknownStrategyFormat, [.text args.syncStrategy.name]⟩)
        else
          (if args.remotes.HasOrigin = true ∧ args.branch.HasTrackingBranch = true
              ∧ ¬ (args.pullBranchStrategy = PullBranchStrategyMerge
                ∨ args.pullBranchStrategy = PullBranchStrategyRebase)
            then some ⟨unknownStrategyFormat, [.text args.pullBranchStrategy.name]⟩
          else none) := by
  unfold branchFailure syncBranchSteps
  by_cases hs : args.syncStrategy = SyncStrategyMerge ∨ args.syncStrategy = SyncStrategyRebase <;>
    by_cases hps : args.pullBranchStrategy = PullBranchStrategyMerge
      ∨ args.pullBranchStrategy = PullBranchStrategyRebase <;>
    cases hf : args.branchTypes.IsFeatureBranch args.branch.LocalName <;>
    cases ho : args.remotes.HasOrigin <;>
    cases hp : args.pushBranch <;>
    cases hoff : args.isOffline <;>
    cases ht : args.branch.HasTrackingBranch <;>
    simp [pushFeatureBranchSteps_error, syncFeatureBranchSteps_error,
      syncPerennialBranchSteps_error, StepListBuilder.Add, StepListBuilder.empty, ht, hs, hps,
      Option.or]


/-! ## C1: scenario S1 -/

/-- C1, counterexample: the configuration the code derives for scenario S1 syncs
`main` before `feature`, so the five steps S1 lists are neither the list built before
`Wrap` nor the list `syncBranchesSteps` returns. -/
theorem s1_claimed_list_refuted :
    determineSyncConfig false s1Repo = .ok (some s1Config)
      ∧ (syncBranchesSteps.beforeWrap s1Config).list.List ≠ s1Claimed
      ∧ syncBranchesSteps s1Config ≠ .ok ⟨s1Claimed⟩
      ∧ runSync.stepList false s1Repo ≠ .ok (some ⟨s1Claimed⟩) := by
  refine ⟨rfl, by decide, ?_, ?_⟩
  · intro h
    exact absurd (StepList.mk.inj (Except.ok.inj h)) (by decide)
  · intro h
    exact absurd (StepList.mk.inj (Option.some.inj (Except.ok.inj h))) (by decide)

/-- C1, amended: in scenario S1 (push hook on, pull-branch strategy rebase) the block of
`feature` followed by the final checkout is the five steps S1 lists; the list built
before `Wrap` is the block of the ancestor `main` followed by these five steps, without
a latched error, and `syncBranchesSteps` returns that list as `Wrap` wraps it for a run
in the Git root without stash. -/
theorem s1_amended_plan :
    branchBlock (s1Config.argsFor (trackedBranch "feature")) ++ [.CheckoutStep ⟨"feature"⟩]
        = s1Claimed
      ∧ syncBranchesSteps.beforeWrap s1Config
        = ⟨⟨[.CheckoutStep ⟨"main"⟩, .RebaseBranchStep ⟨"origin/main"⟩,
            .PushCurrentBranchStep ⟨"main"⟩ false false] ++ s1Claimed⟩, none⟩
      ∧ syncBranchesSteps s1Config
        = (StepListBuilder.Wrap
            ⟨⟨[.CheckoutStep ⟨"main"⟩, .RebaseBranchStep ⟨"origin/main"⟩,
              .PushCurrentBranchStep ⟨"main"⟩ false false] ++ s1Claimed⟩, none⟩
            { RunInGitRoot := true
              StashOpenChanges := false
              MainBranch := ⟨"main"⟩
              InitialBranch := ⟨"feature"⟩
              PreviousBranch := ⟨"main"⟩ }).Result
      ∧ syncBranchesSteps s1Config
        = .ok ⟨[.ChangeToGitRootStep, .CheckoutStep ⟨"main"⟩, .RebaseBranchStep ⟨"origin/main"⟩,
            .PushCurrentBranchStep ⟨"main"⟩ false false] ++ s1Claimed
            ++ [.CheckoutStep ⟨"main"⟩, .CheckoutStep ⟨"feature"⟩]⟩
      ∧ runSync.stepList false s1Repo = (syncBranchesSteps s1Config).map some := by
  refine ⟨by decide, by decide, rfl, rfl, rfl⟩

/-! ## C2: the pulls of a feature branch -/

/-- C2: for a feature branch the block starts with the checkout, then the pull of the
tracking branch exactly when there is one, then the pull of the parent, then nothing but
the push; the pulls are merges under the merge strategy and rebases under the rebase
strategy, and the rebase pulls are the merge pulls with rebase put for merge. -/
theorem feature_branch_pulls (args : syncBranchStepsArgs)
    (hfeature : args.branchTypes.IsFeatureBranch args.branch.LocalName = true) :
    (args.syncStrategy = SyncStrategyMerge →
      ∃ rest, (∀ step ∈ rest, step.isPush = true) ∧
        branchBlock args = .CheckoutStep args.branch.LocalName
          :: ((if args.branch.HasTrackingBranch = true
                then [Step.MergeStep args.branch.RemoteName.BranchName] else [])
              ++ .MergeStep (args.lineage.Parent args.branch.LocalName).BranchName :: rest))
    ∧ (args.syncStrategy = SyncStrategyRebase →
      ∃ rest, (∀ step ∈ rest, step.isPush = true) ∧
        branchBlock args = .CheckoutStep args.branch.LocalName
          :: ((if args.branch.HasTrackingBranch = true
                then [Step.RebaseBranchStep args.branch.RemoteName.BranchName] else [])
              ++ .RebaseBranchStep (args.lineage.Parent args.branch.LocalName).BranchName :: rest))
    ∧ (syncFeatureBranchSteps StepListBuilder.empty args.branch args.lineage
          SyncStrategyRebase).list.List
        = ((syncFeatureBranchSteps StepListBuilder.empty args.branch args.lineage
            SyncStrategyMerge).list.List).map Step.rebaseForMerge := by
  have hne : SyncStrategyRebase ≠ SyncStrategyMerge := by decide
  refine ⟨fun hs => ?_, fun hs => ?_, ?_⟩
  · rw [branchBlock_eq]
    refine ⟨if args.pushBranch = true ∧ args.remotes.HasOrigin = true ∧ args.isOffline = false
      then (if args.branch.HasTrackingBranch = false
        then [Step.CreateTrackingBranchStep args.branch.LocalName false]
        else [Step.PushCurrentBranchStep args.branch.LocalName (!args.pushHook) false])
      else [], ?_, ?_⟩
    · intro step hstep
      split_ifs at hstep <;> simp_all [Step.isPush]
    · simp [hfeature, hs]
  · rw [branchBlock_eq]
    refine ⟨if args.pushBranch = true ∧ args.remotes.HasOrigin = true ∧ args.isOffline = false
      then (if args.branch.HasTrackingBranch = false
        then [Step.CreateTrackingBranchStep args.branch.LocalName false]
        else [Step.ForcePushBranchStep args.branch.LocalName false])
      else [], ?_, ?_⟩
    · intro step hstep
      split_ifs at hstep <;> simp_all [Step.isPush]
    · simp [hfeature, hs, hne]
  · rw [syncFeatureBranchSteps_list, syncFeatureBranchSteps_list]
    cases args.branch.HasTrackingBranch <;>
      simp [hne, StepListBuilder.empty, Step.rebaseForMerge]

/-- C2, witness: the `feature` branch of scenario S1, a feature branch synced with
the merge strategy. -/
theorem feature_branch_pulls_witness :
    scenarioTypes.IsFeatureBranch ⟨"feature"⟩ = true
      ∧ ∃ rest, (∀ step ∈ rest, step.isPush = true) ∧
        branchBlock (s1Config.argsFor (trackedBranch "feature"))
          = .CheckoutStep ⟨"feature"⟩
            :: ([Step.MergeStep ⟨"origin/feature"⟩] ++ .MergeStep ⟨"main"⟩ :: rest) :=
  ⟨by decide,
    (feature_branch_pulls (s1Config.argsFor (trackedBranch "feature")) (by decide)).1
      (by decide)⟩


/-! ## C3: the push of a branch -/

theorem SyncStrategyRebase_ne_Merge : SyncStrategyRebase ≠ SyncStrategyMerge := by decide

theorem PullBranchStrategyRebase_ne_Merge : PullBranchStrategyRebase ≠ PullBranchStrategyMerge := by
  decide

/-- The push steps of a block, in closed form: none unless the branch is pushed, origin
exists and the repository is online; then the one step chosen by the tracking branch, the
branch kind and the sync strategy. -/
theorem branchBlock_pushes (args : syncBranchStepsArgs) :
    (branchBlock args).filter Step.isPush
      = if args.pushBranch = true ∧ args.remotes.HasOrigin = true ∧ args.isOffline = false then
          (if args.branch.HasTrackingBranch = false then
            [Step.CreateTrackingBranchStep args.branch.LocalName false]
          else if args.branchTypes.IsFeatureBranch args.branch.LocalName = false then
            [Step.PushCurrentBranchStep args.branch.LocalName false false]
          else if args.syncStrategy = SyncStrategyMerge then
            [Step.PushCurrentBranchStep args.branch.LocalName (!args.pushHook) false]
          else if args.syncStrategy = SyncStrategyRebase then
            [Step.ForcePushBranchStep args.branch.LocalName false]
          else [])
        else [] := by
  have h₁ := SyncStrategyRebase_ne_Merge
  have h₂ := PullBranchStrategyRebase_ne_Merge
  rw [branchBlock_eq]
  split_ifs <;> simp_all [Step.isPush, List.filter]

/-- With origin present, a block ends with its push part. -/
theorem branchBlock_ends_with_push (args : syncBranchStepsArgs)
    (ho : args.remotes.HasOrigin = true) :
    ∃ init, branchBlock args = init ++
      (if args.pushBranch = true ∧ args.remotes.HasOrigin = true ∧ args.isOffline = false then
          (if args.branch.HasTrackingBranch = false then
            [Step.CreateTrackingBranchStep args.branch.LocalName false]
          else if args.branchTypes.IsFeatureBranch args.branch.LocalName = false then
            [Step.PushCurrentBranchStep args.branch.LocalName false false]
          else if args.syncStrategy = SyncStrategyMerge then
            [Step.PushCurrentBranchStep args.branch.LocalName (!args.pushHook) false]
          else if args.syncStrategy = SyncStrategyRebase then
            [Step.ForcePushBranchStep args.branch.LocalName false]
          else [])
        else []) := by
  rw [branchBlock_eq, if_neg (by simp [ho])]
  exact ⟨_, (List.cons_append _ _ _).symm⟩

/-- C3: with `pushBranch` set, a block holds no push step when origin is absent or the
repository is offline; otherwise it holds exactly one push step, which is its last step:
a new tracking branch for a branch without one, a plain push for a perennial or main
branch with a tracking branch, and for a feature branch with a tracking branch a force
push under the rebase strategy and a push under the merge strategy. -/
theorem push_step_of_branch (args : syncBranchStepsArgs) (hpush : args.pushBranch = true) :
    ((args.remotes.HasOrigin = false ∨ args.isOffline = true) →
      (branchBlock args).filter Step.isPush = [])
    ∧ (args.remotes.HasOrigin = true → args.isOffline = false →
      (args.branch.HasTrackingBranch = false →
        (branchBlock args).filter Step.isPush
            = [.CreateTrackingBranchStep args.branch.LocalName false]
          ∧ (branchBlock args).getLast?
            = some (.CreateTrackingBranchStep args.branch.LocalName false))
      ∧ (args.branch.HasTrackingBranch = true →
          args.branchTypes.IsFeatureBranch args.branch.LocalName = false →
        (branchBlock args).filter Step.isPush
            = [.PushCurrentBranchStep args.branch.LocalName false false]
          ∧ (branchBlock args).getLast?
            = some (.PushCurrentBranchStep args.branch.LocalName false false))
      ∧ (args.branch.HasTrackingBranch = true →
          args.branchTypes.IsFeatureBranch args.branch.LocalName = true →
          args.syncStrategy = SyncStrategyRebase →
        (branchBlock args).filter Step.isPush
            = [.ForcePushBranchStep args.branch.LocalName false]
          ∧ (branchBlock args).getLast?
            = some (.ForcePushBranchStep args.branch.LocalName false))
      ∧ (args.branch.HasTrackingBranch = true →
          args.branchTypes.IsFeatureBranch args.branch.LocalName = true →
          args.syncStrategy = SyncStrategyMerge →
        (branchBlock args).filter Step.isPush
            = [.PushCurrentBranchStep args.branch.LocalName (!args.pushHook) false]
          ∧ (branchBlock args).getLast?
            = some (.PushCurrentBranchStep args.branch.LocalName (!args.pushHook) false))) := by
  have hne := SyncStrategyRebase_ne_Merge
  refine ⟨?_, fun ho hoff => ?_⟩
  · rintro (ho | hoff) <;> simp [branchBlock_pushes, *]
  · refine ⟨fun ht => ?_, fun ht hf => ?_, fun ht hf hs => ?_, fun ht hf hs => ?_⟩ <;>
      refine ⟨by simp [branchBlock_pushes, *], ?_⟩ <;>
      obtain ⟨init, hinit⟩ := branchBlock_ends_with_push args ho <;>
      rw [hinit] <;> simp [*]

/-- C3, witness: the `feature` branch of scenario S1 is pushed with a plain push, the
last step of its block. -/
theorem push_step_of_branch_witness :
    (branchBlock (s1Config.argsFor (trackedBranch "feature"))).filter Step.isPush
        = [.PushCurrentBranchStep ⟨"feature"⟩ false false]
      ∧ (branchBlock (s1Config.argsFor (trackedBranch "feature"))).getLast?
        = some (.PushCurrentBranchStep ⟨"feature"⟩ false false) :=
  ((push_step_of_branch (s1Config.argsFor (trackedBranch "feature")) rfl).2
    (by decide) rfl).2.2.2 rfl (by decide) rfl


/-! ## C4: the blocks follow `branchesToSync` -/

/-- C4: the list built before `Wrap` is the blocks of the branches in the order of
`branchesToSync`, then the epilogue, so with `x` before `y` in `branchesToSync` the block
of `x` lies wholly before the block of `y`; a returned list keeps this list in one piece.
In scenario S3 (`--all`, lineage `main ← a ← b`) the branches to sync are `main, a, b`
and the checkouts of their blocks come in this order. -/
theorem blocks_follow_branchesToSync (config : syncConfig) (before between after : BranchInfos)
    (x y : BranchInfo)
    (horder : config.branchesToSync = before ++ x :: (between ++ y :: after)) :
    ((syncBranchesSteps.beforeWrap config).list.List
        = before.flatMap (fun b => branchBlock (config.argsFor b))
          ++ branchBlock (config.argsFor x)
          ++ between.flatMap (fun b => branchBlock (config.argsFor b))
          ++ branchBlock (config.argsFor y)
          ++ after.flatMap (fun b => branchBlock (config.argsFor b))
          ++ .CheckoutStep config.branches.Initial
            :: (if config.remotes.HasOrigin && config.shouldPushTags && !config.isOffline
                then [Step.PushTagsStep] else []))
    ∧ (∀ l, syncBranchesSteps config = .ok l →
        ∃ front back, l.List = front ++ (syncBranchesSteps.beforeWrap config).list.List ++ back)
    ∧ determineSyncConfig true s3Repo = .ok (some s3Config)
    ∧ s3Config.branchesToSync.map BranchInfo.LocalName = [⟨"main"⟩, ⟨"a"⟩, ⟨"b"⟩]
    ∧ (s3Config.branchesToSync.flatMap (fun b => branchBlock (s3Config.argsFor b))).filterMap
        Step.checkoutTarget = [⟨"main"⟩, ⟨"a"⟩, ⟨"b"⟩]
    ∧ syncBranchesSteps s3Config
      = .ok ⟨[.ChangeToGitRootStep,
          .CheckoutStep ⟨"main"⟩, .RebaseBranchStep ⟨"origin/main"⟩,
          .PushCurrentBranchStep ⟨"main"⟩ false false,
          .CheckoutStep ⟨"a"⟩, .MergeStep ⟨"origin/a"⟩, .MergeStep ⟨"main"⟩,
          .PushCurrentBranchStep ⟨"a"⟩ false false,
          .CheckoutStep ⟨"b"⟩, .MergeStep ⟨"origin/b"⟩, .MergeStep ⟨"a"⟩,
          .PushCurrentBranchStep ⟨"b"⟩ false false,
          .CheckoutStep ⟨"main"⟩, .PushTagsStep,
          .CheckoutStep ⟨"b"⟩, .CheckoutStep ⟨"main"⟩]⟩ := by
  refine ⟨?_, fun l hl => ⟨_, _, syncBranchesSteps_ok_list config l hl⟩, rfl, by decide,
    by decide, rfl⟩
  rw [beforeWrap_list, horder]
  simp [List.flatMap_append, List.flatMap_cons]

/-- C4, witness: scenario S3, with `main` before `b` in the branches to sync. -/
theorem blocks_follow_branchesToSync_witness :
    (syncBranchesSteps.beforeWrap s3Config).list.List
      = [.CheckoutStep ⟨"main"⟩, .RebaseBranchStep ⟨"origin/main"⟩,
          .PushCurrentBranchStep ⟨"main"⟩ false false]
        ++ [.CheckoutStep ⟨"a"⟩, .MergeStep ⟨"origin/a"⟩, .MergeStep ⟨"main"⟩,
          .PushCurrentBranchStep ⟨"a"⟩ false false]
        ++ [.CheckoutStep ⟨"b"⟩, .MergeStep ⟨"origin/b"⟩, .MergeStep ⟨"a"⟩,
          .PushCurrentBranchStep ⟨"b"⟩ false false]
        ++ [.CheckoutStep ⟨"main"⟩, .PushTagsStep] :=
  (blocks_follow_branchesToSync s3Config [] [trackedBranch "a"] []
    (trackedBranch "main") (trackedBranch "b") rfl).1.trans (by decide)

/-! ## C5: the checkout of a branch -/

/-- C5, counterexample: in a repository without remotes `main` is among the branches to
sync, yet its block is empty and no step of the plan checks it out. -/
theorem main_without_origin_is_not_checked_out :
    localBranch "main" ∈ noRemoteConfig.branchesToSync
      ∧ branchBlock (noRemoteConfig.argsFor (localBranch "main")) = []
      ∧ syncBranchesSteps noRemoteConfig
        = .ok ⟨[.ChangeToGitRootStep, .CheckoutStep ⟨"feature"⟩, .MergeStep ⟨"main"⟩,
            .CheckoutStep ⟨"feature"⟩, .CheckoutStep ⟨"feature"⟩, .CheckoutStep ⟨"feature"⟩]⟩
      ∧ ∀ l, syncBranchesSteps noRemoteConfig = .ok l → Step.CheckoutStep ⟨"main"⟩ ∉ l.List := by
  refine ⟨by decide, by decide, rfl, fun l hl => ?_⟩
  have h : syncBranchesSteps noRemoteConfig
      = .ok ⟨[.ChangeToGitRootStep, .CheckoutStep ⟨"feature"⟩, .MergeStep ⟨"main"⟩,
          .CheckoutStep ⟨"feature"⟩, .CheckoutStep ⟨"feature"⟩, .CheckoutStep ⟨"feature"⟩]⟩ := rfl
  rw [h] at hl
  rw [← Except.ok.inj hl]
  decide

/-- C5, amended: a feature branch, and any branch when origin is present, gets a block
that starts with its checkout, and that checkout is in the list built before `Wrap` and
in a returned list; a non-feature branch gets no step at all when origin is absent. -/
theorem checkout_starts_block (config : syncConfig) (branch : BranchInfo)
    (hmem : branch ∈ config.branchesToSync) :
    ((config.branches.Types.IsFeatureBranch branch.LocalName = true
        ∨ config.remotes.HasOrigin = true) →
      (∃ rest, branchBlock (config.argsFor branch) = .CheckoutStep branch.LocalName :: rest)
      ∧ Step.CheckoutStep branch.LocalName ∈ (syncBranchesSteps.beforeWrap config).list.List
      ∧ ∀ l, syncBranchesSteps config = .ok l → Step.CheckoutStep branch.LocalName ∈ l.List)
    ∧ (config.branches.Types.IsFeatureBranch branch.LocalName = false →
        config.remotes.HasOrigin = false → branchBlock (config.argsFor branch) = []) := by
  refine ⟨fun h => ?_, fun hf ho => ?_⟩
  · have hblock : ∃ rest, branchBlock (config.argsFor branch)
        = .CheckoutStep branch.LocalName :: rest := by
      rw [branchBlock_eq, if_neg]
      · exact ⟨_, rfl⟩
      · rintro ⟨hf, ho⟩
        rcases h with h | h
        · exact absurd (hf.symm.trans h) (by decide)
        · exact absurd (ho.symm.trans h) (by decide)
    have hbefore : Step.CheckoutStep branch.LocalName
        ∈ (syncBranchesSteps.beforeWrap config).list.List := by
      obtain ⟨rest, hrest⟩ := hblock
      rw [beforeWrap_list]
      refine List.mem_append_left _ (List.mem_flatMap.2 ⟨branch, hmem, ?_⟩)
      rw [hrest]
      exact List.mem_cons_self _ _
    refine ⟨hblock, hbefore, fun l hl => ?_⟩
    rw [syncBranchesSteps_ok_list config l hl]
    exact List.mem_append_left _ (List.mem_append_right _ hbefore)
  · rw [branchBlock_eq, if_pos ⟨hf, ho⟩]

/-- C5, witness: the `feature` branch of scenario S1. -/
theorem checkout_starts_block_witness :
    Step.CheckoutStep ⟨"feature"⟩ ∈ (syncBranchesSteps.beforeWrap s1Config).list.List :=
  ((checkout_starts_block s1Config (trackedBranch "feature") (by decide)).1
    (Or.inl (by decide))).2.1


/-! ## C6: syncing the main branch with upstream -/

/-- C6, the code at the failing input: with `upstream` as the only remote and
sync-upstream enabled, the branch is the main branch, an upstream remote is configured
and sync-upstream is on, which is all the claim and the help text (`sync.go:32-34`) ask
for; yet the block of the main branch is empty and the plan holds no fetch of upstream.
With `origin` added to the same remotes the pair is planned: the fetch of upstream
directly followed by the rebase onto `upstream/main`. -/
theorem no_upstream_sync_without_origin :
    (upstreamOnlyConfig.argsFor (localBranch "main")).branch.LocalName
        = (upstreamOnlyConfig.argsFor (localBranch "main")).mainBranch
      ∧ (upstreamOnlyConfig.argsFor (localBranch "main")).remotes.HasUpstream = true
      ∧ (upstreamOnlyConfig.argsFor (localBranch "main")).shouldSyncUpstream = true
      ∧ branchBlock (upstreamOnlyConfig.argsFor (localBranch "main")) = []
      ∧ Step.FetchUpstreamStep ⟨"main"⟩
        ∉ branchBlock (upstreamOnlyConfig.argsFor (localBranch "main"))
      ∧ syncBranchesSteps upstreamOnlyConfig
        = .ok ⟨[.ChangeToGitRootStep, .CheckoutStep ⟨"feature"⟩, .MergeStep ⟨"main"⟩,
            .CheckoutStep ⟨"feature"⟩, .CheckoutStep ⟨"feature"⟩, .CheckoutStep ⟨"feature"⟩]⟩
      ∧ (∀ l, syncBranchesSteps upstreamOnlyConfig = .ok l →
          Step.FetchUpstreamStep ⟨"main"⟩ ∉ l.List)
      ∧ branchBlock
          { upstreamOnlyConfig.argsFor (localBranch "main") with
            remotes := ⟨["origin", "upstream"]⟩ }
        = [.CheckoutStep ⟨"main"⟩, .FetchUpstreamStep ⟨"main"⟩,
            .RebaseBranchStep ⟨"upstream/main"⟩,
            .CreateTrackingBranchStep ⟨"main"⟩ false] := by
  have h : syncBranchesSteps upstreamOnlyConfig
      = .ok ⟨[.ChangeToGitRootStep, .CheckoutStep ⟨"feature"⟩, .MergeStep ⟨"main"⟩,
          .CheckoutStep ⟨"feature"⟩, .CheckoutStep ⟨"feature"⟩, .CheckoutStep ⟨"feature"⟩]⟩ := rfl
  refine ⟨by decide, by decide, by decide, by decide, by decide, h, fun l hl => ?_, by decide⟩
  rw [h] at hl
  rw [← Except.ok.inj hl]
  decide

/-- Where the code plans the upstream pair: a block holds a fetch of upstream exactly
when the branch is the main branch, passes the guard of `syncBranchSteps` as a
non-feature branch with origin present, an upstream remote is configured and
sync-upstream is enabled; the block is then the checkout, the pull of the tracking
branch by the pull-branch strategy if there is a tracking branch, the fetch of upstream,
the rebase onto `upstream/` + main whatever the pull-branch strategy, and the push. -/
theorem upstream_sync_of_main (args : syncBranchStepsArgs) :
    ((∃ branch, Step.FetchUpstreamStep branch ∈ branchBlock args) ↔
      (args.branch.LocalName = args.mainBranch
        ∧ args.branchTypes.IsFeatureBranch args.branch.LocalName = false
        ∧ args.remotes.HasOrigin = true
        ∧ args.remotes.HasUpstream = true
        ∧ args.shouldSyncUpstream = true))
    ∧ (args.branch.LocalName = args.mainBranch →
        args.branchTypes.IsFeatureBranch args.branch.LocalName = false →
        args.remotes.HasOrigin = true → args.remotes.HasUpstream = true →
        args.shouldSyncUpstream = true →
        ∃ rest, (∀ step ∈ rest, step.isPush = true) ∧
          branchBlock args = .CheckoutStep args.mainBranch
            :: ((if args.branch.HasTrackingBranch = true then
                  (if args.pullBranchStrategy = PullBranchStrategyMerge
                    then [Step.MergeStep args.branch.RemoteName.BranchName]
                  else if args.pullBranchStrategy = PullBranchStrategyRebase
                    then [Step.RebaseBranchStep args.branch.RemoteName.BranchName]
                  else [])
                else [])
              ++ .FetchUpstreamStep args.mainBranch
                :: .RebaseBranchStep ⟨"upstream/" ++ args.mainBranch.id⟩ :: rest)) := by
  constructor
  · rw [branchBlock_eq]
    constructor
    · rintro ⟨branch, hmem⟩
      split_ifs at hmem <;> simp_all
    · rintro ⟨hm, hf, ho, hu, hs⟩
      refine ⟨args.mainBranch, ?_⟩
      have hf' := hf
      rw [hm] at hf'
      simp [hm, hf', ho, hu, hs]
  · intro hm hf ho hu hs
    rw [branchBlock_eq]
    refine ⟨if args.pushBranch = true ∧ args.remotes.HasOrigin = true ∧ args.isOffline = false
      then (if args.branch.HasTrackingBranch = false
        then [Step.CreateTrackingBranchStep args.branch.LocalName false]
        else [Step.PushCurrentBranchStep args.branch.LocalName false false])
      else [], ?_, ?_⟩
    · intro step hstep
      split_ifs at hstep <;> simp_all [Step.isPush]
    · have hf' := hf
      rw [hm] at hf'
      simp [hm, hf', ho, hu, hs, NewBranchName, LocalBranchName.String]

/-- The upstream pair in the block of the main branch of scenario S1, given an upstream
remote next to origin and sync-upstream enabled. -/
theorem upstream_sync_of_main_witness :
    ∃ rest, (∀ step ∈ rest, step.isPush = true) ∧
      branchBlock
          { s1Config.argsFor (trackedBranch "main") with
            remotes := ⟨["origin", "upstream"]⟩, shouldSyncUpstream := true }
        = .CheckoutStep ⟨"main"⟩
          :: ([Step.RebaseBranchStep ⟨"origin/main"⟩]
            ++ .FetchUpstreamStep ⟨"main"⟩ :: .RebaseBranchStep ⟨"upstream/main"⟩ :: rest) :=
  (upstream_sync_of_main
    { s1Config.argsFor (trackedBranch "main") with
      remotes := ⟨["origin", "upstream"]⟩, shouldSyncUpstream := true }).2
    rfl (by decide) (by decide) (by decide) rfl


/-! ## C7: the epilogue of the plan -/

/-- No block holds a tags push or anything but checkouts, pulls, the upstream pair and
branch pushes: in particular `PushTagsStep` is never part of a block. -/
theorem branchBlock_no_pushTags (args : syncBranchStepsArgs) :
    Step.PushTagsStep ∉ branchBlock args := by
  rw [branchBlock_eq]
  intro hmem
  split_ifs at hmem <;> simp_all

/-- The tags are pushed when `--all` is given or the initial branch is no feature
branch. -/
theorem determineSyncConfig_shouldPushTags (allFlag : Bool) (repo : OpenRepoResult)
    (config : syncConfig) (h : determineSyncConfig allFlag repo = .ok (some config)) :
    config.shouldPushTags
      = (allFlag || !config.branches.Types.IsFeatureBranch config.branches.Initial) := by
  unfold determineSyncConfig at h
  dsimp only at h
  repeat' split at h
  all_goals simp at h
  all_goals (subst h; simp_all)

/-- C7: the list built before `Wrap` is the per-branch blocks, then the checkout of the
initial branch, then a tags push exactly when origin is present, tags are to be pushed
and the repository is online; the blocks hold no tags push, so the list holds one tags
push in that case and none otherwise; and `determineSyncConfig` sets `shouldPushTags`
exactly when `--all` is given or the initial branch is no feature branch. -/
theorem epilogue_of_plan (config : syncConfig) :
    ((syncBranchesSteps.beforeWrap config).list.List
        = config.branchesToSync.flatMap (fun b => branchBlock (config.argsFor b))
          ++ .CheckoutStep config.branches.Initial
            :: (if config.remotes.HasOrigin = true ∧ config.shouldPushTags = true
                  ∧ config.isOffline = false
                then [Step.PushTagsStep] else []))
    ∧ ((syncBranchesSteps.beforeWrap config).list.List.count Step.PushTagsStep
        = if config.remotes.HasOrigin = true ∧ config.shouldPushTags = true
            ∧ config.isOffline = false then 1 else 0)
    ∧ (∀ allFlag repo, determineSyncConfig allFlag repo = .ok (some config) →
        config.shouldPushTags
          = (allFlag || !config.branches.Types.IsFeatureBranch config.branches.Initial)) := by
  have hblocks : Step.PushTagsStep
      ∉ config.branchesToSync.flatMap (fun b => branchBlock (config.argsFor b)) := by
    intro hmem
    obtain ⟨b, -, hb⟩ := List.mem_flatMap.1 hmem
    exact branchBlock_no_pushTags _ hb
  refine ⟨?_, ?_, fun allFlag repo h => determineSyncConfig_shouldPushTags allFlag repo config h⟩
  · rw [beforeWrap_list]
    cases config.remotes.HasOrigin <;> cases config.shouldPushTags <;>
      cases config.isOffline <;> simp
  · rw [beforeWrap_list, List.count_append, List.count_eq_zero_of_not_mem hblocks]
    cases config.remotes.HasOrigin <;> cases config.shouldPushTags <;>
      cases config.isOffline <;> simp

/-- C7, witness: scenario S1, synced without `--all` from a feature branch, pushes no
tags. -/
theorem epilogue_of_plan_witness :
    s1Config.shouldPushTags
      = (false || !s1Config.branches.Types.IsFeatureBranch s1Config.branches.Initial) :=
  (epilogue_of_plan s1Config).2.2 false s1Repo rfl

/-! ## C8: the pull of a perennial branch -/

/-- C8: for a non-feature branch with a tracking branch, origin being present, the step
right after the checkout is the pull of the tracking branch, a merge under the merge
pull-branch strategy and a rebase under the rebase one; the block does not depend on the
sync strategy. -/
theorem perennial_branch_pull (args : syncBranchStepsArgs)
    (hperennial : args.branchTypes.IsFeatureBranch args.branch.LocalName = false)
    (horigin : args.remotes.HasOrigin = true)
    (htracking : args.branch.HasTrackingBranch = true) :
    (args.pullBranchStrategy = PullBranchStrategyMerge →
      ∃ rest, branchBlock args = .CheckoutStep args.branch.LocalName
        :: .MergeStep args.branch.RemoteName.BranchName :: rest)
    ∧ (args.pullBranchStrategy = PullBranchStrategyRebase →
      ∃ rest, branchBlock args = .CheckoutStep args.branch.LocalName
        :: .RebaseBranchStep args.branch.RemoteName.BranchName :: rest)
    ∧ (∀ strategy, branchBlock { args with syncStrategy := strategy } = branchBlock args) := by
  have hne := PullBranchStrategyRebase_ne_Merge
  refine ⟨fun hs => ?_, fun hs => ?_, fun strategy => ?_⟩
  · rw [branchBlock_eq]
    refine ⟨(if args.branch.LocalName = args.mainBranch ∧ args.remotes.HasUpstream = true
          ∧ args.shouldSyncUpstream = true then
        [Step.FetchUpstreamStep args.mainBranch,
          Step.RebaseBranchStep (NewBranchName ("upstream/" ++ args.mainBranch.String))]
      else [])
      ++ (if args.pushBranch = true ∧ args.remotes.HasOrigin = true ∧ args.isOffline = false
        then [Step.PushCurrentBranchStep args.branch.LocalName false false] else []), ?_⟩
    simp [hperennial, horigin, htracking, hs]
  · rw [branchBlock_eq]
    refine ⟨(if args.branch.LocalName = args.mainBranch ∧ args.remotes.HasUpstream = true
          ∧ args.shouldSyncUpstream = true then
        [Step.FetchUpstreamStep args.mainBranch,
          Step.RebaseBranchStep (NewBranchName ("upstream/" ++ args.mainBranch.String))]
      else [])
      ++ (if args.pushBranch = true ∧ args.remotes.HasOrigin = true ∧ args.isOffline = false
        then [Step.PushCurrentBranchStep args.branch.LocalName false false] else []), ?_⟩
    simp [hperennial, horigin, htracking, hs, hne]
  · rw [branchBlock_eq, branchBlock_eq]
    simp [hperennial, horigin, htracking]

/-- C8, witness: the main branch of scenario S1, pulled by rebase. -/
theorem perennial_branch_pull_witness :
    ∃ rest, branchBlock (s1Config.argsFor (trackedBranch "main"))
      = .CheckoutStep ⟨"main"⟩ :: .RebaseBranchStep ⟨"origin/main"⟩ :: rest :=
  (perennial_branch_pull (s1Config.argsFor (trackedBranch "main")) (by decide) (by decide)
    rfl).2.1 rfl


/-! ## C9: unknown strategy values -/

/-- Every error a block latches carries the unknown-strategy format. -/
theorem branchFailure_format (args : syncBranchStepsArgs) (e : GoError)
    (h : branchFailure args = some e) : e.format = unknownStrategyFormat := by
  rw [branchFailure_eq] at h
  split_ifs at h <;> simp at h <;> subst h <;> rfl

/-- C9: when a feature branch is synced with a sync strategy that is neither merge nor
rebase, or a non-feature branch with a tracking branch is synced (origin present) with a
pull-branch strategy that is neither merge nor rebase, the builder latches an error and
`syncBranchesSteps` returns that error, in the unknown-strategy format, and no step
list; the pull with the unknown value adds no step. -/
theorem unknown_strategy_fails (config : syncConfig) (branch : BranchInfo)
    (hmem : branch ∈ config.branchesToSync)
    (hunknown :
      (config.branches.Types.IsFeatureBranch branch.LocalName = true
        ∧ config.syncStrategy ≠ SyncStrategyMerge ∧ config.syncStrategy ≠ SyncStrategyRebase)
      ∨ (config.branches.Types.IsFeatureBranch branch.LocalName = false
        ∧ config.remotes.HasOrigin = true ∧ branch.HasTrackingBranch = true
        ∧ config.pullBranchStrategy ≠ PullBranchStrategyMerge
        ∧ config.pullBranchStrategy ≠ PullBranchStrategyRebase)) :
    (∃ e, syncBranchesSteps config = .error e ∧ e.format = unknownStrategyFormat
        ∧ (syncBranchesSteps.beforeWrap config).deferredError = some e)
    ∧ (∀ l, syncBranchesSteps config ≠ .ok l)
    ∧ (∀ slb tracking parent,
        config.syncStrategy ≠ SyncStrategyMerge → config.syncStrategy ≠ SyncStrategyRebase →
        (pullTrackingBranchOfCurrentFeatureBranchStep slb tracking config.syncStrategy).list
            = slb.list
          ∧ (pullParentBranchOfCurrentFeatureBranchStep slb parent config.syncStrategy).list
            = slb.list)
    ∧ (∀ slb other,
        config.pullBranchStrategy ≠ PullBranchStrategyMerge →
        config.pullBranchStrategy ≠ PullBranchStrategyRebase →
        (updateCurrentPerennialBranchStep slb other config.pullBranchStrategy).list
          = slb.list) := by
  have hfail : ∃ e, branchFailure (config.argsFor branch) = some e := by
    rw [branchFailure_eq]
    rcases hunknown with ⟨hf, h₁, h₂⟩ | ⟨hf, ho, ht, h₁, h₂⟩
    · refine ⟨⟨unknownStrategyFormat, [.text config.syncStrategy.name]⟩, ?_⟩
      have h : ¬ (config.syncStrategy = SyncStrategyMerge
          ∨ config.syncStrategy = SyncStrategyRebase) := by
        rintro (h | h)
        · exact h₁ h
        · exact h₂ h
      show (if config.branches.Types.IsFeatureBranch branch.LocalName = true then _ else _) = _
      rw [if_pos hf]
      show (if config.syncStrategy = SyncStrategyMerge
        ∨ config.syncStrategy = SyncStrategyRebase then _ else _) = _
      rw [if_neg h]
      rfl
    · refine ⟨⟨unknownStrategyFormat, [.text config.pullBranchStrategy.name]⟩, ?_⟩
      have h : ¬ (config.pullBranchStrategy = PullBranchStrategyMerge
          ∨ config.pullBranchStrategy = PullBranchStrategyRebase) := by
        rintro (h | h)
        · exact h₁ h
        · exact h₂ h
      show (if config.branches.Types.IsFeatureBranch branch.LocalName = true then _ else _) = _
      rw [if_neg (by rw [hf]; decide)]
      show (if config.remotes.HasOrigin = true ∧ branch.HasTrackingBranch = true
        ∧ ¬ (config.pullBranchStrategy = PullBranchStrategyMerge
          ∨ config.pullBranchStrategy = PullBranchStrategyRebase) then _ else _) = _
      rw [if_pos ⟨ho, ht, h⟩]
      rfl
  have hsome : ∃ e, config.branchesToSync.findSome?
      (fun b => branchFailure (config.argsFor b)) = some e := by
    obtain ⟨e, he⟩ := hfail
    cases hfind : config.branchesToSync.findSome? (fun b => branchFailure (config.argsFor b)) with
    | some e' => exact ⟨e', rfl⟩
    | none =>
      rw [List.findSome?_eq_none_iff] at hfind
      rw [hfind branch hmem] at he
      exact absurd he (by simp)
  obtain ⟨e, he⟩ := hsome
  have hformat : e.format = unknownStrategyFormat := by
    obtain ⟨b, -, hb⟩ := List.exists_of_findSome?_eq_some he
    exact branchFailure_format _ e hb
  have hresult : syncBranchesSteps config = .error e := by
    unfold syncBranchesSteps
    rw [Result_error_iff, Wrap_error, beforeWrap_error, he]
  refine ⟨⟨e, hresult, hformat, by rw [beforeWrap_error, he]⟩, fun l hl => ?_, ?_, ?_⟩
  · rw [hresult] at hl
    exact absurd hl (by simp)
  · intro slb tracking parent h₁ h₂
    unfold pullTrackingBranchOfCurrentFeatureBranchStep pullParentBranchOfCurrentFeatureBranchStep
    rw [if_neg h₁, if_neg h₂, if_neg h₁, if_neg h₂]
    constructor <;> (unfold StepListBuilder.Fail; split <;> rfl)
  · intro slb other h₁ h₂
    unfold updateCurrentPerennialBranchStep
    rw [if_neg h₁, if_neg h₂]
    unfold StepListBuilder.Fail
    split <;> rfl

/-- C9, witness: scenario S1 with the sync strategy `squash` yields the error about the
unknown value and no step list. -/
theorem unknown_strategy_fails_witness :
    (∃ e, syncBranchesSteps unknownStrategyConfig = .error e
        ∧ e.format = unknownStrategyFormat
        ∧ (syncBranchesSteps.beforeWrap unknownStrategyConfig).deferredError = some e)
      ∧ syncBranchesSteps unknownStrategyConfig
        = .error ⟨.literal "unknown syncStrategy value: %q", [.text "squash"]⟩ :=
  ⟨(unknown_strategy_fails unknownStrategyConfig (trackedBranch "feature") (by decide)
      (Or.inl ⟨by decide, by decide, by decide⟩)).1, rfl⟩

/-! ## C10: the undo run state -/

/-- C10: `determineUndoRunstate` yields a run state exactly when a run state loads, exists
and is not unfinished, and then it is `CreateUndoRunState` of the loaded one; a failed
load gives the load-problem error made from the loader's error, and a missing or
unfinished run state gives the nothing-to-undo error. -/
theorem undo_runstate (Load : String → Except String (Option RunState))
    (CreateUndoRunState : RunState → RunState) (repo : OpenRepoResult) :
    ((∃ undo, determineUndoRunstate Load CreateUndoRunState repo = .ok undo) ↔
      ∃ runState, Load repo.RootDir = .ok (some runState) ∧ runState.IsUnfinished = false)
    ∧ (∀ runState, Load repo.RootDir = .ok (some runState) → runState.IsUnfinished = false →
        determineUndoRunstate Load CreateUndoRunState repo = .ok (CreateUndoRunState runState))
    ∧ (∀ err, Load repo.RootDir = .error err →
        determineUndoRunstate Load CreateUndoRunState repo
          = .error ⟨.message .RunstateLoadProblem, [.text err]⟩)
    ∧ (Load repo.RootDir = .ok none →
        determineUndoRunstate Load CreateUndoRunState repo
          = .error ⟨.message .UndoNothingToDo, []⟩)
    ∧ (∀ runState, Load repo.RootDir = .ok (some runState) → runState.IsUnfinished = true →
        determineUndoRunstate Load CreateUndoRunState repo
          = .error ⟨.message .UndoNothingToDo, []⟩) := by
  unfold determineUndoRunstate
  refine ⟨?_, ?_, ?_, ?_, ?_⟩
  · constructor
    · rintro ⟨undo, h⟩
      split at h
      · exact absurd h (by simp)
      · exact absurd h (by simp)
      · rename_i runState hload
        refine ⟨runState, hload, ?_⟩
        cases hu : runState.IsUnfinished
        · rfl
        · rw [hu] at h
          exact absurd h (by simp)
    · rintro ⟨runState, hload, hu⟩
      exact ⟨CreateUndoRunState runState, by rw [hload]; simp [hu]⟩
  · intro runState hload hu
    rw [hload]
    simp [hu]
  · intro err hload
    rw [hload]
  · intro hload
    rw [hload]
  · intro runState hload hu
    rw [hload]
    simp [hu]

/-- C10, witness: a loader that finds the run state of a finished `sync`, and an undo
construction that runs the undo steps. -/
theorem undo_runstate_witness :
    determineUndoRunstate (fun _ => .ok (some finishedRunState))
        (fun runState => { runState with IsUndo := true, RunStepList := runState.UndoStepList })
        s1Repo
      = .ok { finishedRunState with
          IsUndo := true, RunStepList := ⟨[.CheckoutStep ⟨"feature"⟩]⟩ } :=
  (undo_runstate (fun _ => .ok (some finishedRunState))
    (fun runState => { runState with IsUndo := true, RunStepList := runState.UndoStepList })
    s1Repo).2.1 finishedRunState rfl rfl


/-! ## C11: undoing the removal of a parent -/

/-- C11: `CreateUndoSteps` of a DeleteParentBranchStep never fails; it gives the single
step `SetParentStep` with the branch and the parent of the step when the parent is not
empty and no step when it is empty, whatever the backend. -/
theorem delete_parent_undo_steps (step : DeleteParentBranchStep)
    (backend : Option BackendCommands) :
    (step.Parent.id ≠ "" →
      step.CreateUndoSteps backend = .ok [.SetParentStep step.Branch step.Parent])
    ∧ (step.Parent.id = "" → step.CreateUndoSteps backend = .ok [])
    ∧ (∀ err, step.CreateUndoSteps backend ≠ .error err)
    ∧ (∀ other, step.CreateUndoSteps other = step.CreateUndoSteps backend) := by
  unfold DeleteParentBranchStep.CreateUndoSteps LocalBranchName.IsEmpty
  refine ⟨fun h => ?_, fun h => ?_, fun err => ?_, fun other => rfl⟩
  · simp [h]
  · simp [h]
  · split_ifs <;> simp

/-- C11, witness: removing the parent `main` of `feature` is undone by setting it
again. -/
theorem delete_parent_undo_steps_witness :
    DeleteParentBranchStep.CreateUndoSteps ⟨⟨"feature"⟩, ⟨"main"⟩⟩ none
      = .ok [.SetParentStep ⟨"feature"⟩ ⟨"main"⟩] :=
  (delete_parent_undo_steps ⟨⟨"feature"⟩, ⟨"main"⟩⟩ none).1 (by decide)

/-! ## C12: the automatic abort of a proposal update -/

/-- C12: an UpdateProposalTargetStep aborts automatically on error, and its abort error
is never nil: it is the proposal-target-update-problem entry of the catalog with the
proposal number of the step as its argument, which reads "Could not update the target
branch of proposal" followed by that number, whatever the two targets are. -/
theorem proposal_update_abort_error (step : UpdateProposalTargetStep) :
    step.ShouldAutomaticallyAbortOnError = true
    ∧ step.CreateAutomaticAbortError
      = some ⟨.message .ProposalTargetBranchUpdateProblem, [.number step.ProposalNumber]⟩
    ∧ step.CreateAutomaticAbortError.bind GoError.Error
      = some ("Could not update the target branch of proposal "
          ++ toString step.ProposalNumber)
    ∧ (∀ newTarget existingTarget,
        UpdateProposalTargetStep.CreateAutomaticAbortError
            { step with NewTarget := newTarget, ExistingTarget := existingTarget }
          = step.CreateAutomaticAbortError)
    ∧ (UpdateProposalTargetStep.CreateAutomaticAbortError ⟨42, ⟨"main"⟩, ⟨"dev"⟩⟩).bind
        GoError.Error
      = some "Could not update the target branch of proposal 42" := by
  refine ⟨rfl, rfl, ?_, fun _ _ => rfl, by decide⟩
  simp [UpdateProposalTargetStep.CreateAutomaticAbortError, GoError.Error, Message.text,
    Sprintf, Sprintf.chars]
  rfl

/-! ## C13: restoring open changes -/

/-- C13: running a RestoreOpenChangesStep gives an error exactly when `PopStash` fails,
and then always the workspace-conflict error `messages.DiffConflictWithMain`, whatever
`PopStash` reported; the undo steps are always the single step `StashOpenChangesStep`. -/
theorem restore_open_changes_error (step : RestoreOpenChangesStep) (args : RunArgs)
    (backend : Option BackendCommands) :
    ((∃ err, step.Run args = some err) ↔ ∃ cause, args.Runner.Frontend.PopStash = some cause)
    ∧ (∀ cause, args.Runner.Frontend.PopStash = some cause →
        step.Run args = some ⟨.message .DiffConflictWithMain, []⟩)
    ∧ (args.Runner.Frontend.PopStash = none → step.Run args = none)
    ∧ step.CreateUndoSteps backend = .ok [.StashOpenChangesStep] := by
  unfold RestoreOpenChangesStep.Run
  refine ⟨?_, fun cause h => by rw [h], fun h => by rw [h], rfl⟩
  cases args.Runner.Frontend.PopStash <;> simp

/-- C13, witness: a failed pop with an error of its own is reported as the
workspace-conflict error. -/
theorem restore_open_changes_error_witness :
    RestoreOpenChangesStep.Run {} ⟨⟨⟨some ⟨.literal "exit status 1", []⟩⟩⟩⟩
      = some ⟨.message .DiffConflictWithMain, []⟩ :=
  (restore_open_changes_error {} ⟨⟨⟨some ⟨.literal "exit status 1", []⟩⟩⟩⟩ none).2.1 _ rfl

/-! ## C15: the head of a step list -/

/-- C15: `Peek` gives the first step of the list, nil for the empty list, and leaves
the list as it is; `Pop` gives the step `Peek` gives and leaves the tail of the list,
which for the empty list is the empty list again. -/
theorem peek_and_pop_head (stepList : StepList) :
    stepList.Peek.1 = stepList.List.head?
    ∧ stepList.Peek.2 = stepList
    ∧ stepList.Pop.1 = stepList.Peek.1
    ∧ stepList.Pop.2.List = stepList.List.tail
    ∧ (stepList.List = [] →
        stepList.Peek.1 = none ∧ stepList.Pop.1 = none ∧ stepList.Pop.2.List = [])
    ∧ (∀ step rest, stepList.List = step :: rest →
        stepList.Peek = (some step, stepList) ∧ stepList.Pop = (some step, ⟨rest⟩))
    ∧ StepList.Peek ⟨[.AbortMergeStep, .StashOpenChangesStep]⟩
      = (some .AbortMergeStep, ⟨[.AbortMergeStep, .StashOpenChangesStep]⟩)
    ∧ StepList.Pop ⟨[.AbortMergeStep, .StashOpenChangesStep]⟩
      = (some .AbortMergeStep, ⟨[.StashOpenChangesStep]⟩)
    ∧ StepList.Peek ⟨[]⟩ = (none, ⟨[]⟩)
    ∧ StepList.Pop ⟨[]⟩ = (none, ⟨[]⟩) := by
  obtain ⟨steps⟩ := stepList
  cases steps with
  | nil => simp [StepList.Peek, StepList.Pop]
  | cons step rest => simp [StepList.Peek, StepList.Pop]

/-- C15, witness: the list of the tests, with a first step and a tail. -/
theorem peek_and_pop_head_witness :
    StepList.Peek ⟨[.AbortMergeStep, .StashOpenChangesStep]⟩
        = (some .AbortMergeStep, ⟨[.AbortMergeStep, .StashOpenChangesStep]⟩)
      ∧ StepList.Pop ⟨[.AbortMergeStep, .StashOpenChangesStep]⟩
        = (some .AbortMergeStep, ⟨[.StashOpenChangesStep]⟩) :=
  (peek_and_pop_head ⟨[.AbortMergeStep, .StashOpenChangesStep]⟩).2.2.2.2.2.1
    .AbortMergeStep [.StashOpenChangesStep] rfl


/-! ## C16: what the push hook influences -/

/-- The error a block latches does not depend on the push hook. -/
theorem branchFailure_pushHook (args : syncBranchStepsArgs) (hook : Bool) :
    branchFailure { args with pushHook := hook } = branchFailure args := by
  rw [branchFailure_eq, branchFailure_eq]

/-- The block of a branch does not depend on the push hook, unless it ends with the push
of a feature branch with a tracking branch under the merge strategy. -/
theorem branchBlock_pushHook (args : syncBranchStepsArgs) (hook : Bool)
    (h : ¬ (args.pushBranch = true ∧ args.remotes.HasOrigin = true ∧ args.isOffline = false
      ∧ args.branchTypes.IsFeatureBranch args.branch.LocalName = true
      ∧ args.branch.HasTrackingBranch = true ∧ args.syncStrategy = SyncStrategyMerge)) :
    branchBlock { args with pushHook := hook } = branchBlock args := by
  rw [branchBlock_eq, branchBlock_eq]
  dsimp only
  by_cases hm : args.syncStrategy = SyncStrategyMerge
  · by_cases hc : args.pushBranch = true ∧ args.remotes.HasOrigin = true
        ∧ args.isOffline = false
    · cases hf : args.branchTypes.IsFeatureBranch args.branch.LocalName
      · simp only [hf, Bool.false_eq_true, if_false, if_true]
      · cases ht : args.branch.HasTrackingBranch
        · simp only [ht, if_true]
        · exact absurd ⟨hc.1, hc.2.1, hc.2.2, hf, ht, hm⟩ h
    · simp only [hc, if_false]
  · simp only [hm, if_false]

/-- The push steps of a block carry `NoPushHook = false`, except the push of a feature
branch with a tracking branch under the merge strategy, which carries the negation of
the push hook. -/
theorem branchBlock_noPushHook (args : syncBranchStepsArgs) (step : Step)
    (hstep : step ∈ branchBlock args) :
    (∀ branch noPushHook, step = .CreateTrackingBranchStep branch noPushHook →
      noPushHook = false)
    ∧ (∀ branch noPushHook, step = .ForcePushBranchStep branch noPushHook → noPushHook = false)
    ∧ (∀ branch noPushHook undoable,
        step = .PushCurrentBranchStep branch noPushHook undoable →
        (args.branchTypes.IsFeatureBranch args.branch.LocalName = false → noPushHook = false)
        ∧ (noPushHook = false
          ∨ (args.branchTypes.IsFeatureBranch args.branch.LocalName = true
            ∧ args.branch.HasTrackingBranch = true ∧ args.syncStrategy = SyncStrategyMerge
            ∧ noPushHook = !args.pushHook))) := by
  have hpush : ∀ s ∈ branchBlock args, s.isPush = true →
      s ∈ (branchBlock args).filter Step.isPush :=
    fun s hs hp => List.mem_filter.2 ⟨hs, hp⟩
  refine ⟨fun branch n hs => ?_, fun branch n hs => ?_, fun branch n u hs => ?_⟩
  · have hmem := hpush step hstep (by rw [hs]; rfl)
    rw [branchBlock_pushes, hs] at hmem
    split_ifs at hmem <;> simp_all
  · have hmem := hpush step hstep (by rw [hs]; rfl)
    rw [branchBlock_pushes, hs] at hmem
    split_ifs at hmem <;> simp_all
  · have hmem := hpush step hstep (by rw [hs]; rfl)
    rw [branchBlock_pushes, hs] at hmem
    split_ifs at hmem <;> simp_all

/-- A builder is its list and its latched error. -/
theorem StepListBuilder.eq_of_parts {a b : StepListBuilder} (hlist : a.list.List = b.list.List)
    (herr : a.deferredError = b.deferredError) : a = b := by
  obtain ⟨⟨la⟩, ea⟩ := a
  obtain ⟨⟨lb⟩, eb⟩ := b
  simp only at hlist herr
  rw [hlist, herr]

/-- Blocks that agree on every branch of a list give the same concatenation. -/
theorem flatMap_blocks_congr (bs : BranchInfos) (f g : BranchInfo → List Step)
    (h : ∀ b ∈ bs, f b = g b) : bs.flatMap f = bs.flatMap g := by
  induction bs with
  | nil => rfl
  | cons b bs ih =>
    rw [List.flatMap_cons, List.flatMap_cons, h b (List.mem_cons_self _ _),
      ih (fun x hx => h x (List.mem_cons_of_mem _ hx))]

/-- C16: the push steps of a block carry `NoPushHook = false`, except the push of a
feature branch with a tracking branch under the merge strategy, which is the last step
of its block and carries the negation of the push hook; a block without such a push is
the same for every push hook, and a configuration in which no branch gets such a push
yields the same result of `syncBranchesSteps` for every push hook. -/
theorem push_hook_influence (config : syncConfig) (hook : Bool) :
    (∀ args step, step ∈ branchBlock args →
      (∀ branch noPushHook, step = .CreateTrackingBranchStep branch noPushHook →
        noPushHook = false)
      ∧ (∀ branch noPushHook, step = .ForcePushBranchStep branch noPushHook →
        noPushHook = false)
      ∧ (∀ branch noPushHook undoable,
          step = .PushCurrentBranchStep branch noPushHook undoable →
          (args.branchTypes.IsFeatureBranch args.branch.LocalName = false →
            noPushHook = false)
          ∧ (noPushHook = false
            ∨ (args.branchTypes.IsFeatureBranch args.branch.LocalName = true
              ∧ args.branch.HasTrackingBranch = true
              ∧ args.syncStrategy = SyncStrategyMerge
              ∧ noPushHook = !args.pushHook))))
    ∧ (∀ args : syncBranchStepsArgs,
        args.pushBranch = true → args.remotes.HasOrigin = true → args.isOffline = false →
        args.branchTypes.IsFeatureBranch args.branch.LocalName = true →
        args.branch.HasTrackingBranch = true → args.syncStrategy = SyncStrategyMerge →
        (branchBlock args).getLast?
          = some (.PushCurrentBranchStep args.branch.LocalName (!args.pushHook) false))
    ∧ (∀ args : syncBranchStepsArgs,
        ¬ (args.pushBranch = true ∧ args.remotes.HasOrigin = true ∧ args.isOffline = false
          ∧ args.branchTypes.IsFeatureBranch args.branch.LocalName = true
          ∧ args.branch.HasTrackingBranch = true ∧ args.syncStrategy = SyncStrategyMerge) →
        branchBlock { args with pushHook := hook } = branchBlock args)
    ∧ ((∀ branch ∈ config.branchesToSync,
          ¬ (config.remotes.HasOrigin = true ∧ config.isOffline = false
            ∧ config.branches.Types.IsFeatureBranch branch.LocalName = true
            ∧ branch.HasTrackingBranch = true ∧ config.syncStrategy = SyncStrategyMerge)) →
        syncBranchesSteps { config with pushHook := hook } = syncBranchesSteps config) := by
  refine ⟨fun args step hstep => branchBlock_noPushHook args step hstep,
    fun args hp ho hoff hf ht hs => ?_, fun args h => branchBlock_pushHook args hook h,
    fun h => ?_⟩
  · obtain ⟨init, hinit⟩ := branchBlock_ends_with_push args ho
    rw [hinit]
    simp [hp, ho, hoff, hf, ht, hs]
  · have hbefore : syncBranchesSteps.beforeWrap { config with pushHook := hook }
        = syncBranchesSteps.beforeWrap config := by
      apply StepListBuilder.eq_of_parts
      · rw [beforeWrap_list, beforeWrap_list]
        congr 1
        refine flatMap_blocks_congr _ _ _ (fun b hb => ?_)
        refine branchBlock_pushHook (config.argsFor b) hook ?_
        rintro ⟨-, ho, hoff, hf, ht, hs⟩
        exact h b hb ⟨ho, hoff, hf, ht, hs⟩
      · rw [beforeWrap_error, beforeWrap_error]
        congr 1
        funext b
        exact branchFailure_pushHook (config.argsFor b) hook
    unfold syncBranchesSteps
    rw [hbefore]
    rfl

/-- C16, witness: scenario S1 under the rebase strategy plans no merge push, so the
push hook does not change its plan. -/
theorem push_hook_influence_witness :
    syncBranchesSteps { s1Config with syncStrategy := SyncStrategyRebase, pushHook := false }
      = syncBranchesSteps { s1Config with syncStrategy := SyncStrategyRebase } :=
  (push_hook_influence { s1Config with syncStrategy := SyncStrategyRebase } false).2.2.2
    (by decide)


/-! ## C14: the JSON form of a step list -/

/-- Decoding the payload of a step under the name of its variant gives the step back. -/
theorem Step.fromJSON_data (step : Step) :
    ∃ fields, step.data = .object fields ∧ Step.fromJSON step.typeName fields = .ok step := by
  cases step <;> exact ⟨_, rfl, rfl⟩

/-- Decoding the tagged form of a step gives the step back. -/
theorem Step.untag_tagged (step : Step) : Step.untag step.tagged = .ok step := by
  obtain ⟨fields, hdata, hfrom⟩ := Step.fromJSON_data step
  unfold Step.tagged Step.untag
  rw [hdata]
  simpa [List.lookup] using hfrom

/-- Decoding the tagged forms of steps gives the steps back. -/
theorem Step.untagAll_tagged (steps : List Step) :
    Step.untagAll (steps.map Step.tagged) = .ok steps := by
  induction steps with
  | nil => rfl
  | cons step steps ih =>
    rw [List.map_cons, Step.untagAll, Step.untag_tagged, ih]

/-- The tagged form round-trips: loading what `MarshalJSON` writes gives the list back,
so writing it again gives the same document. -/
theorem StepList.unmarshal_marshal (stepList : StepList) :
    StepList.UnmarshalJSON stepList.MarshalJSON = .ok stepList := by
  show (match Step.untagAll (stepList.List.map Step.tagged) with
    | .error err => .error err
    | .ok steps => .ok ⟨steps⟩) = Except.ok stepList
  rw [Step.untagAll_tagged]

/-- C14, counterexample: the list of the test `TestStepList/MarshalJSON`, serialised on
its own, is the text the test asserts: an object with the field `List` and two empty
objects, without any `type` or `data`.  It is not the tagged form of that list, nor of
any step list, and `UnmarshalJSON`, which reads the tagged form, cannot load it. -/
theorem steplist_alone_is_not_tagged :
    marshalTestList.jsonMarshal = .object [("List", .array [.object [], .object []])]
      ∧ marshalTestList.jsonMarshal.MarshalIndent = some marshalTestWant
      ∧ marshalTestList.MarshalJSON
        = .array
          [ .object [("data", .object []), ("type", .string "AbortMergeStep")],
            .object [("data", .object []), ("type", .string "StashOpenChangesStep")] ]
      ∧ marshalTestList.jsonMarshal ≠ marshalTestList.MarshalJSON
      ∧ (∀ stepList : StepList, marshalTestList.jsonMarshal ≠ stepList.MarshalJSON)
      ∧ StepList.UnmarshalJSON marshalTestList.jsonMarshal ≠ .ok marshalTestList
      ∧ StepList.UnmarshalJSON marshalTestList.jsonMarshal = .error .Malformed := by
  have hne : ∀ stepList : StepList, marshalTestList.jsonMarshal ≠ stepList.MarshalJSON := by
    intro stepList h
    unfold StepList.jsonMarshal StepList.MarshalJSON at h
    cases h
  have hfail : StepList.UnmarshalJSON marshalTestList.jsonMarshal = .error .Malformed := rfl
  refine ⟨rfl, by decide, rfl, hne _, hne, ?_, hfail⟩
  rw [hfail]
  exact fun h => by cases h

/-- C14, amended: the tagged form of a step list is the array of its steps, each an
object with the payload under `data` and the name of the variant under `type`;
`UnmarshalJSON` loads it and gives the list back, so whatever it loads is the list and
serialises to the same document and the same text.  The tagged document of the test
`TestStepList/UnmarshalJSON` loads as the test expects, and an unknown `type` is an
error. -/
theorem tagged_steplist_round_trips (stepList : StepList) :
    stepList.MarshalJSON
        = .array (stepList.List.map fun step =>
            .object [("data", step.data), ("type", .string step.typeName)])
      ∧ StepList.UnmarshalJSON stepList.MarshalJSON = .ok stepList
      ∧ (∀ loaded, StepList.UnmarshalJSON stepList.MarshalJSON = .ok loaded →
          loaded = stepList
          ∧ loaded.MarshalJSON = stepList.MarshalJSON
          ∧ loaded.MarshalJSON.MarshalIndent = stepList.MarshalJSON.MarshalIndent)
      ∧ StepList.UnmarshalJSON unmarshalTestGive
        = .ok ⟨[.ResetCurrentBranchToSHAStep false ⟨"abcdef"⟩, .StashOpenChangesStep]⟩
      ∧ Step.fromJSON "NoSuchStep" [] = .error (.UnknownStepType "NoSuchStep") := by
  refine ⟨rfl, StepList.unmarshal_marshal stepList, fun loaded h => ?_, rfl, rfl⟩
  rw [StepList.unmarshal_marshal] at h
  have hloaded : loaded = stepList := (Except.ok.inj h).symm
  subst hloaded
  exact ⟨rfl, rfl, rfl⟩

/-- C14, witness: the list of the test `TestStepList/MarshalJSON` in its tagged form
loads, what is loaded is that list, and it is written as the same text again. -/
theorem tagged_steplist_round_trips_witness :
    StepList.UnmarshalJSON marshalTestList.MarshalJSON
        = .ok ⟨[.AbortMergeStep, .StashOpenChangesStep]⟩
      ∧ marshalTestList.MarshalJSON.MarshalIndent
        = some ("[\n  \x7b\n    \"data\": \x7b\x7d,\n    \"type\": \"AbortMergeStep\"\n  \x7d,\n"
            ++ "  \x7b\n    \"data\": \x7b\x7d,\n    \"type\": \"StashOpenChangesStep\"\n  \x7d\n]")
      ∧ StepList.MarshalJSON ⟨[.AbortMergeStep, .StashOpenChangesStep]⟩
        = marshalTestList.MarshalJSON
      ∧ (StepList.MarshalJSON ⟨[.AbortMergeStep, .StashOpenChangesStep]⟩).MarshalIndent
        = marshalTestList.MarshalJSON.MarshalIndent :=
  ⟨(tagged_steplist_round_trips marshalTestList).2.1, by decide,
    ((tagged_steplist_round_trips marshalTestList).2.2.1
      ⟨[.AbortMergeStep, .StashOpenChangesStep]⟩
      (tagged_steplist_round_trips marshalTestList).2.1).2⟩

end GitTown
